import Mathlib

/-
Verification of the YAML experiment builder (src/Yank/yamlbuild.py).

The development shallowly embeds the builder: pure numeric code is embedded
over exact rationals, file-system effects are modelled by an explicit
existence predicate plus an action trace, and the randomized rigid motions
drawn by the overlap resolver are supplied as an input stream of moves.
-/

namespace YamlBuild

/-- A 3-D atom position.  The source works with floating-point numpy arrays;
the embedding uses exact rationals so that every predicate is decidable. -/
abbrev Point : Type := ℚ × ℚ × ℚ

/-- Squared Euclidean distance between two atoms.  The source compares
Euclidean distances; since the square root is monotone on nonnegative
numbers, the embedding keeps squared distances throughout and compares them
against squared thresholds. -/
def sqDist (p q : Point) : ℚ :=
  (p.1 - q.1)^2 + (p.2.1 - q.2.1)^2 + (p.2.2 - q.2.2)^2

/-- All pairwise squared distances between the candidate positions and one
fixed group, row-major, mirroring the distances2 matrix built inside
compute_min_dist. -/
def pairSqDists (mol g : List Point) : List ℚ :=
  mol.flatMap (fun p => g.map (fun q => sqDist p q))

/-- Minimum of a list of rationals; none on the empty list (numpy's argmin
raises on an empty array). -/
def listMinQ : List ℚ → Option ℚ
  | [] => none
  | a :: rest =>
    match listMinQ rest with
    | none => some a
    | some b => some (min a b)

/-- Minimum entry of the pairwise squared-distance matrix between the
candidate and one fixed group. -/
def pairMinSq (mol g : List Point) : Option ℚ := listMinQ (pairSqDists mol g)

/-- compute_min_dist of the source, embedded over squared distances: for every
fixed group the full pairwise squared-distance matrix to the candidate is
minimized, and the minimum is taken across all fixed groups.  none models the
error numpy raises when no fixed group is supplied or a position array is
empty. -/
def compute_min_dist2 (mol : List Point) : List (List Point) → Option ℚ
  | [] => none
  | [g] => pairMinSq mol g
  | g :: g2 :: rest =>
    match pairMinSq mol g, compute_min_dist2 mol (g2 :: rest) with
    | some a, some b => some (min a b)
    | _, _ => none

/-- remove_overlap of the source.  The randomized rigid motion drawn at each
loop iteration (a uniform rotation about the candidate's centroid followed by
a Gaussian translation, both produced by external samplers) is modelled by a
stream of moves supplied to the function, and the threshold parameter is the
squared min_distance.  The result carries the number of executed loop
iterations together with the final positions; none models exhaustion of the
supplied random stream (the source would keep looping) or the numpy errors on
degenerate inputs. -/
def remove_overlap (groups : List (List Point)) (md2 : ℚ) :
    List (List Point → List Point) → List Point → Option (Nat × List Point)
  | [], x =>
    match compute_min_dist2 x groups with
    | none => none
    | some d => if d ≤ md2 then none else some (0, x)
  | m :: ms, x =>
    match compute_min_dist2 x groups with
    | none => none
    | some d =>
      if d ≤ md2 then
        (remove_overlap groups md2 ms (m x)).map (fun p => (p.1 + 1, p.2))
      else some (0, x)

/-- C1: whenever remove_overlap returns a result for a candidate group and the
given fixed groups, the minimum pairwise (squared) distance between the
returned candidate positions and every fixed group, computed as
compute_min_dist2 does (minimum over all fixed groups of the minimum entry of
the full pairwise distance matrix), is strictly greater than the (squared)
min_distance threshold. -/
theorem remove_overlap_returns_separated (groups : List (List Point)) (md2 : ℚ)
    (moves : List (List Point → List Point)) (x : List Point) (k : Nat) (y : List Point)
    (h : remove_overlap groups md2 moves x = some (k, y)) :
    ∃ d : ℚ, compute_min_dist2 y groups = some d ∧ md2 < d := by
  induction moves generalizing x k with
  | nil =>
    unfold remove_overlap at h
    cases hc : compute_min_dist2 x groups with
    | none => rw [hc] at h; exact absurd h (by simp)
    | some d =>
      rw [hc] at h
      by_cases hle : d ≤ md2
      · simp [hle] at h
      · simp [hle] at h
        exact ⟨d, h.2 ▸ hc, lt_of_not_le hle⟩
  | cons m ms ih =>
    unfold remove_overlap at h
    cases hc : compute_min_dist2 x groups with
    | none => rw [hc] at h; exact absurd h (by simp)
    | some d =>
      rw [hc] at h
      by_cases hle : d ≤ md2
      · simp only [hle, if_true] at h
        rcases Option.map_eq_some'.mp h with ⟨⟨k', y'⟩, hrec, heq⟩
        have hy : y' = y := congrArg Prod.snd heq
        rw [hy] at hrec
        exact ih (m x) k' hrec
      · simp only [hle, if_false] at h
        have h' : ((0 : Nat), x) = (k, y) := Option.some.inj h
        have hy : x = y := congrArg Prod.snd h'
        exact ⟨d, hy ▸ hc, lt_of_not_le hle⟩

theorem remove_overlap_returns_separated_witness :
    remove_overlap [[((0 : ℚ), 0, 0)]] 1
        [fun l => l.map (fun p => (p.1 + 3, p.2.1, p.2.2))] [((0 : ℚ), 0, 0)]
      = some (1, [((3 : ℚ), 0, 0)]) ∧
    ∃ d : ℚ, compute_min_dist2 [((3 : ℚ), 0, 0)] [[((0 : ℚ), 0, 0)]] = some d ∧ (1 : ℚ) < d :=
  have h : remove_overlap [[((0 : ℚ), 0, 0)]] 1
        [fun l => l.map (fun p => (p.1 + 3, p.2.1, p.2.2))] [((0 : ℚ), 0, 0)]
      = some (1, [((3 : ℚ), 0, 0)]) := by
    norm_num [remove_overlap, compute_min_dist2, pairMinSq, pairSqDists, listMinQ, sqDist]
  ⟨h, remove_overlap_returns_separated _ _ _ _ _ _ h⟩

/-- C9: a candidate whose minimum (squared) pairwise distance from every fixed
group already exceeds the (squared) min_distance is returned unchanged after
zero loop iterations.  The source copies the input array before the loop, so
the caller's array is never mutated; in this pure embedding the returned
positions are literally the input list. -/
theorem remove_overlap_noop (groups : List (List Point)) (md2 : ℚ)
    (moves : List (List Point → List Point)) (x : List Point) (d : ℚ)
    (hc : compute_min_dist2 x groups = some d) (hd : md2 < d) :
    remove_overlap groups md2 moves x = some (0, x) := by
  cases moves <;> unfold remove_overlap <;> rw [hc] <;>
    simp [not_le.mpr hd]

theorem remove_overlap_noop_witness :
    compute_min_dist2 [((5 : ℚ), 0, 0)] [[((0 : ℚ), 0, 0)]] = some 25 ∧
    (1 : ℚ) < 25 ∧
    remove_overlap [[((0 : ℚ), 0, 0)]] 1 [] [((5 : ℚ), 0, 0)] = some (0, [((5 : ℚ), 0, 0)]) :=
  have hc : compute_min_dist2 [((5 : ℚ), 0, 0)] [[((0 : ℚ), 0, 0)]] = some 25 := by
    norm_num [compute_min_dist2, pairMinSq, pairSqDists, listMinQ, sqDist]
  ⟨hc, by norm_num, remove_overlap_noop _ _ _ _ 25 hc (by norm_num)⟩

/-! Validation of molecule and solvent descriptors (_parse_molecules and
_parse_solvents). -/

/-- A string made by appending to a nonempty string is nonempty. -/
theorem str_append_ne_empty (s t : String) (hs : s ≠ "") : s ++ t ≠ "" := by
  intro h
  apply hs
  have hd := congrArg String.data h
  rw [String.data_append] at hd
  have h0 : s.data = [] := (List.append_eq_nil.mp hd).1
  cases s with
  | mk data =>
    simp only at h0
    subst h0
    rfl

/-- The nonbonded treatment methods resolvable through the openmm.app lookup
table; NoCutoff is the one singled out by the validation logic. -/
inductive NonbondedMethod
  | NoCutoff
  | PME
  | CutoffPeriodic
  deriving DecidableEq

/-- Printable name of a nonbonded method, as str would render the openmm.app
constant in the error message. -/
def methodName : NonbondedMethod → String
  | .NoCutoff => "NoCutoff"
  | .PME => "PME"
  | .CutoffPeriodic => "CutoffPeriodic"

/-- Implicit-solvent models resolvable through the openmm.app lookup table. -/
inductive ImplicitModel
  | OBC2
  | GBn
  deriving DecidableEq

/-- A validated-and-converted solvent descriptor: every recognized key is
either present or absent. -/
structure Solvent where
  nonbondedMethod : Option NonbondedMethod
  nonbondedCutoff : Option ℚ
  implicitSolvent : Option ImplicitModel
  clearance : Option ℚ
  deriving DecidableEq

def mustSpecifyMsg (solvent_id : String) : String :=
  "solvent " ++ solvent_id ++ " must specify nonbondedMethod"

/-- The duplicated word is present in the source format string. -/
def noCutoffConflictMsg (solvent_id : String) : String :=
  "solvent " ++ solvent_id ++ " specify both nonbondedMethod: NoCutoff and and nonbondedCutoff"

def implicitConflictMsg (solvent_id : String) (m : NonbondedMethod) : String :=
  "solvent " ++ solvent_id ++ " specify both nonbondedMethod: " ++ methodName m
    ++ " and implicitSolvent"

def noClearanceMsg (solvent_id : String) : String :=
  "solvent " ++ solvent_id ++ " uses explicit solvent but no clearance specified"

/-- Per-solvent consistency check of _parse_solvents: mandatory
nonbondedMethod; NoCutoff excludes a cutoff distance; any other method
excludes an implicit-solvent model and requires a clearance. -/
def validateSolvent (solvent_id : String) (s : Solvent) : Except String Unit :=
  match s.nonbondedMethod with
  | none => .error (mustSpecifyMsg solvent_id)
  | some m =>
    let err :=
      if m = .NoCutoff then
        if s.nonbondedCutoff.isSome then noCutoffConflictMsg solvent_id else ""
      else
        if s.implicitSolvent.isSome then implicitConflictMsg solvent_id m
        else if s.clearance.isNone then noClearanceMsg solvent_id
        else ""
    if err = "" then .ok () else .error err

/-- C3: solvent validation fails when nonbondedMethod is absent; when
NoCutoff is combined with a nonbondedCutoff; when a non-NoCutoff method is
combined with an implicitSolvent; and when a non-NoCutoff method has neither
implicitSolvent nor clearance.  A non-NoCutoff method with a clearance and no
implicit-solvent model validates successfully. -/
theorem validateSolvent_checks (solvent_id : String) (s : Solvent) :
    (s.nonbondedMethod = none → validateSolvent solvent_id s = .error (mustSpecifyMsg solvent_id)) ∧
    (s.nonbondedMethod = some .NoCutoff → s.nonbondedCutoff.isSome = true →
      validateSolvent solvent_id s = .error (noCutoffConflictMsg solvent_id)) ∧
    (∀ m, s.nonbondedMethod = some m → m ≠ .NoCutoff → s.implicitSolvent.isSome = true →
      validateSolvent solvent_id s = .error (implicitConflictMsg solvent_id m)) ∧
    (∀ m, s.nonbondedMethod = some m → m ≠ .NoCutoff → s.implicitSolvent = none →
      s.clearance = none →
      validateSolvent solvent_id s = .error (noClearanceMsg solvent_id)) ∧
    (∀ m, s.nonbondedMethod = some m → m ≠ .NoCutoff → s.implicitSolvent = none →
      s.clearance.isSome = true →
      validateSolvent solvent_id s = .ok ()) := by
  have h1 : noCutoffConflictMsg solvent_id ≠ "" := by
    have := str_append_ne_empty "solvent " (solvent_id ++ " specify both nonbondedMethod: NoCutoff and and nonbondedCutoff") (by decide)
    simpa [noCutoffConflictMsg, String.append_assoc] using this
  have h2 : ∀ m, implicitConflictMsg solvent_id m ≠ "" := by
    intro m
    have := str_append_ne_empty "solvent " (solvent_id ++ " specify both nonbondedMethod: " ++ methodName m ++ " and implicitSolvent") (by decide)
    simpa [implicitConflictMsg, String.append_assoc] using this
  have h3 : noClearanceMsg solvent_id ≠ "" := by
    have := str_append_ne_empty "solvent " (solvent_id ++ " uses explicit solvent but no clearance specified") (by decide)
    simpa [noClearanceMsg, String.append_assoc] using this
  refine ⟨?_, ?_, ?_, ?_, ?_⟩
  · intro h; simp [validateSolvent, h]
  · intro h hc; simp [validateSolvent, h, hc, h1]
  · intro m h hm hi; simp [validateSolvent, h, hm, hi, h2 m]
  · intro m h hm hi hc; simp [validateSolvent, h, hm, hi, hc, h3]
  · intro m h hm hi hc
    simp [validateSolvent, h, hm, hi, Option.isNone_iff_eq_none,
      Option.isSome_iff_exists] at hc ⊢
    rcases hc with ⟨v, hv⟩
    simp [hv]

theorem validateSolvent_checks_witness :
    validateSolvent "s0" ⟨none, none, none, none⟩ = .error (mustSpecifyMsg "s0") ∧
    validateSolvent "s1" ⟨some .NoCutoff, some 1, none, none⟩
      = .error (noCutoffConflictMsg "s1") ∧
    validateSolvent "s2" ⟨some .PME, none, some .OBC2, none⟩
      = .error (implicitConflictMsg "s2" .PME) ∧
    validateSolvent "s3" ⟨some .PME, none, none, none⟩ = .error (noClearanceMsg "s3") ∧
    validateSolvent "s4" ⟨some .PME, none, none, some 10⟩ = .ok () :=
  ⟨(validateSolvent_checks "s0" _).1 rfl,
   (validateSolvent_checks "s1" _).2.1 rfl rfl,
   (validateSolvent_checks "s2" _).2.2.1 .PME rfl (by decide) rfl,
   (validateSolvent_checks "s3" _).2.2.2.1 .PME rfl (by decide) rfl rfl,
   (validateSolvent_checks "s4" _).2.2.2.2 .PME rfl (by decide) rfl rfl⟩

/-- A molecule descriptor after template validation: recognized keys present
or absent. -/
structure Molecule where
  filepath : Option String
  name : Option String
  smiles : Option String
  parameters : Option String
  epik : Option Int
  deriving DecidableEq

/-- Number of source fields specified among filepath, name and smiles. -/
def sourceCount (m : Molecule) : Nat :=
  (if m.filepath.isSome then 1 else 0) + (if m.name.isSome then 1 else 0)
    + (if m.smiles.isSome then 1 else 0)

/-- Last path component, as os.path operations see it: the characters after
the last path separator. -/
def baseName (s : String) : String :=
  String.mk ((s.data.reverse.takeWhile (fun c => c ≠ '/')).reverse)

/-- Extension of a path without its dot, mirroring
os.path.splitext(path)[1][1:]: the part of the last component after its last
dot, empty when there is no dot or when every character before the last dot
is itself a dot (hidden-file rule). -/
def extOf (path : String) : String :=
  let base := baseName path
  let rev := base.data.reverse
  let ext := rev.takeWhile (fun c => c ≠ '.')
  match rev.drop ext.length with
  | [] => ""
  | _ :: before => if before.all (fun c => c = '.') then "" else String.mk ext.reverse

def oneSourceMsg (molecule_id : String) : String :=
  "need only one between filepath, name, smiles for molecule " ++ molecule_id

def fileFormatMsg (molecule_id : String) : String :=
  "molecule " ++ molecule_id ++ ", only mol2, pdb files supported"

def noParamsMsg (molecule_id : String) : String :=
  "no parameters specified for molecule " ++ molecule_id

/-- Per-molecule consistency check of _parse_molecules.  As in the source,
the missing-parameters check runs last and overwrites any earlier error
message before the single raise. -/
def validateMolecule (molecule_id : String) (m : Molecule) : Except String Unit :=
  let err1 : String :=
    if sourceCount m ≠ 1 then oneSourceMsg molecule_id
    else if m.filepath.isSome ∧ extOf (m.filepath.getD "") ∉ (["mol2", "pdb"] : List String) then
      fileFormatMsg molecule_id
    else ""
  let err2 : String := if m.parameters.isNone then noParamsMsg molecule_id else err1
  if err2 = "" then .ok () else .error err2

/-- C4: molecule validation fails with an error naming the molecule id when
the descriptor has not exactly one source among filepath, name, smiles; when
the filepath's extension is not a supported structure format; and when no
parameters specification is present.  A descriptor with exactly one source, a
supported extension when the source is a file, and a parameters field
validates successfully. -/
theorem validateMolecule_checks (molecule_id : String) (m : Molecule) :
    (sourceCount m ≠ 1 →
      ∃ e, validateMolecule molecule_id m = .error e ∧
        (e = oneSourceMsg molecule_id ∨ e = noParamsMsg molecule_id)) ∧
    (m.filepath.isSome = true → extOf (m.filepath.getD "") ∉ (["mol2", "pdb"] : List String) →
      ∃ e, validateMolecule molecule_id m = .error e ∧
        (e = oneSourceMsg molecule_id ∨ e = fileFormatMsg molecule_id ∨
          e = noParamsMsg molecule_id)) ∧
    (m.parameters = none → validateMolecule molecule_id m = .error (noParamsMsg molecule_id)) ∧
    (sourceCount m = 1 → (∀ fp, m.filepath = some fp → extOf fp ∈ (["mol2", "pdb"] : List String)) →
      m.parameters.isSome = true → validateMolecule molecule_id m = .ok ()) := by
  have hone : oneSourceMsg molecule_id ≠ "" := by
    have := str_append_ne_empty "need only one between filepath, name, smiles for molecule " molecule_id (by decide)
    simpa [oneSourceMsg] using this
  have hfmt : fileFormatMsg molecule_id ≠ "" := by
    have := str_append_ne_empty "molecule " (molecule_id ++ ", only mol2, pdb files supported") (by decide)
    simpa [fileFormatMsg, String.append_assoc] using this
  have hnp : noParamsMsg molecule_id ≠ "" := by
    have := str_append_ne_empty "no parameters specified for molecule " molecule_id (by decide)
    simpa [noParamsMsg] using this
  refine ⟨?_, ?_, ?_, ?_⟩
  · intro h
    by_cases hp : m.parameters.isNone
    · exact ⟨noParamsMsg molecule_id, by simp [validateMolecule, hp, hnp], Or.inr rfl⟩
    · exact ⟨oneSourceMsg molecule_id, by simp [validateMolecule, h, hp, hone], Or.inl rfl⟩
  · intro hf hext
    by_cases hp : m.parameters.isNone
    · exact ⟨noParamsMsg molecule_id, by simp [validateMolecule, hp, hnp], Or.inr (Or.inr rfl)⟩
    · by_cases hc : sourceCount m = 1
      · refine ⟨fileFormatMsg molecule_id, ?_, Or.inr (Or.inl rfl)⟩
        simp [validateMolecule, hc, hp, hf, hext, hfmt]
      · exact ⟨oneSourceMsg molecule_id, by simp [validateMolecule, hc, hp, hone], Or.inl rfl⟩
  · intro hp
    simp [validateMolecule, hp, hnp]
  · intro hc hext hp
    have hp' : ¬m.parameters.isNone := by
      simp [Option.isNone_iff_eq_none]
      rcases Option.isSome_iff_exists.mp hp with ⟨v, hv⟩
      simp [hv]
    cases hfp : m.filepath with
    | none => simp [validateMolecule, hc, hp', hfp]
    | some fp =>
      have := hext fp hfp
      simp [validateMolecule, hc, hp', hfp, this]

theorem validateMolecule_checks_witness :
    (∃ e, validateMolecule "m0"
        ⟨some "a.mol2", some "benzene", none, some "antechamber", none⟩ = .error e ∧
        (e = oneSourceMsg "m0" ∨ e = noParamsMsg "m0")) ∧
    (∃ e, validateMolecule "m1" ⟨some "a.xyz", none, none, some "antechamber", none⟩ = .error e ∧
        (e = oneSourceMsg "m1" ∨ e = fileFormatMsg "m1" ∨ e = noParamsMsg "m1")) ∧
    validateMolecule "m2" ⟨some "a.mol2", none, none, none, none⟩ = .error (noParamsMsg "m2") ∧
    validateMolecule "m3" ⟨some "a.mol2", none, none, some "antechamber", none⟩ = .ok () :=
  ⟨(validateMolecule_checks "m0" _).1 (by decide),
   (validateMolecule_checks "m1" _).2.1 rfl (by decide),
   (validateMolecule_checks "m2" _).2.2.1 rfl,
   (validateMolecule_checks "m3" _).2.2.2 (by decide)
     (by intro fp hfp; cases Option.some.inj hfp; decide) rfl⟩

/-! The resumable pipeline orchestrator.  The file system is modelled by an
existence predicate on path strings, external side effects by an explicit
trace of actions, and the builder's per-run caches by explicit state. -/

/-- Whether a path component already ends with the separator. -/
def endsWithSlash (a : String) : Bool :=
  match a.data.getLast? with
  | some ch => ch = '/'
  | none => false

/-- os.path.join for the path shapes the builder produces: no separator is
duplicated after a component that already ends with one, and an empty first
component contributes nothing. -/
def pathJoin (a b : String) : String :=
  if a = "" then b
  else if endsWithSlash a then a ++ b
  else a ++ "/" ++ b

/-- Directory for one molecule's setup files
(YamlBuilder._get_molecule_setup_dir). -/
def moleculeSetupDir (output_dir molecule_id : String) : String :=
  pathJoin (pathJoin output_dir "setup/molecules") molecule_id

/-- Directory for one receptor/ligand/solvent system
(YamlBuilder._get_system_setup_dir). -/
def systemSetupDir (output_dir receptor_id ligand_id solvent_id : String) : String :=
  pathJoin (pathJoin output_dir "setup/systems")
    (receptor_id ++ "_" ++ ligand_id ++ "_" ++ solvent_id)

/-- Directory for one experiment (YamlBuilder._get_experiment_dir). -/
def experimentDir (output_dir experiment_dir : String) : String :=
  pathJoin (pathJoin output_dir "experiments") experiment_dir

/-- The receptor/ligand/solvent component triple of one experiment. -/
structure Components where
  receptor : String
  ligand : String
  solvent : String
  deriving DecidableEq

/-- The global options relevant to the orchestrator, already merged with the
defaults by _parse_options. -/
structure Opts where
  output_dir : String
  resume_setup : Bool
  resume_simulation : Bool
  deriving DecidableEq

/-- Per-experiment overrides of the orchestrator options; a missing key falls
back to the global options (the KeyError fallbacks in _check_setup_resume). -/
structure OptOverride where
  output_dir : Option String
  resume_setup : Option Bool
  resume_simulation : Option Bool
  deriving DecidableEq

/-- The raw configuration sections kept aside by the constructor
(self._raw_yaml); section payloads are opaque scalar strings. -/
structure RawYaml where
  options : List (String × String)
  molecules : List (String × String)
  solvents : List (String × String)
  deriving DecidableEq

/-- One expanded experiment combination: its component triple, its parsed
option overrides, and the raw text of its options section as it would be
re-emitted into the reproducibility snapshot. -/
structure Combination where
  components : Components
  options : OptOverride
  rawOptions : List (String × String)
  deriving DecidableEq

def effOutputDir (glob : Opts) (c : Combination) : String :=
  c.options.output_dir.getD glob.output_dir

def effResumeSetup (glob : Opts) (c : Combination) : Bool :=
  c.options.resume_setup.getD glob.resume_setup

def effResumeSimulation (glob : Opts) (c : Combination) : Bool :=
  c.options.resume_simulation.getD glob.resume_simulation

/-- First-match lookup in an association list, as a Python dict read. -/
def lookupA {α : Type} : List (String × α) → String → Option α
  | [], _ => none
  | (k, v) :: rest, key => if key = k then some v else lookupA rest key

/-- Python dict.update on association lists: keys of the base keep their
position and take the overriding value, keys only in the update are
appended. -/
def updateAssoc {α : Type} (base upd : List (String × α)) : List (String × α) :=
  base.map (fun p => (p.1, (lookupA upd p.1).getD p.2))
    ++ upd.filter (fun p => (lookupA base p.1).isNone)

/-- The reproducibility document assembled by _generate_yaml: the four
sections, in emission order. -/
structure Snapshot where
  options : List (String × String)
  molecules : List (String × String)
  solvents : List (String × String)
  experiment : Components
  deriving DecidableEq

/-- _generate_yaml: keep only the molecules/solvents whose id is among the
experiment's component values, merge the raw global options with the
experiment's own options section (experiment wins), and keep the experiment
block with its options section popped. -/
def generate_yaml (raw : RawYaml) (c : Combination) : Snapshot :=
  let comps := [c.components.receptor, c.components.ligand, c.components.solvent]
  { options := updateAssoc raw.options c.rawOptions
    molecules := raw.molecules.filter (fun p => decide (p.1 ∈ comps))
    solvents := raw.solvents.filter (fun p => decide (p.1 ∈ comps))
    experiment := c.components }

/-- Externally observable effects of one build, in execution order.  File
writes and calls into the external toolchains and the simulation engine are
recorded; pure in-memory work is not. -/
inductive Action where
  | makedirs (dir : String)
  | configLogger (path : String)
  | writeYaml (path : String) (snap : Snapshot)
  | yankResume (dir : String)
  | yankCreate (dir : String)
  | yankRun (dir : String)
  | prepareAmber (dir : String) (ligand_dsl : String)
  | writeMol2 (molecule_id : String) (path : String)
  | runEpik (molecule_id : String) (path : String)
  | runAntechamber (molecule_id : String)
  | exportLeap (path : String)
  | runTLeap (dir : String)
  deriving DecidableEq

/-- The builder's mutable per-run state: the file system (existence of a
path), the molecule descriptors (self._molecules, mutated in place as setup
proceeds), the OpenEye-generated molecule cache (self._oe_molecules, keyed by
id and holding the molecule's positions), and the fixed-position cache
(self._fixed_pos_cache). -/
structure BuilderState where
  fs : String → Bool
  molecules : String → Molecule
  oeMols : String → Option (List Point)
  fixedPosCache : String → Option (List Point)

/-- os.makedirs in the model: the path now exists. -/
def mkdirFS (dir : String) (st : BuilderState) : BuilderState :=
  { st with fs := fun p => if p = dir then true else st.fs p }

def setMol (st : BuilderState) (molecule_id : String) (m : Molecule) : BuilderState :=
  { st with molecules := fun i => if i = molecule_id then m else st.molecules i }

def setOe (st : BuilderState) (molecule_id : String) (pos : List Point) : BuilderState :=
  { st with oeMols := fun i => if i = molecule_id then some pos else st.oeMols i }

def setCache (st : BuilderState) (molecule_id : String) (pos : List Point) : BuilderState :=
  { st with fixedPosCache := fun i => if i = molecule_id then some pos else st.fixedPosCache i }

/-- The external collaborators: whether the OpenEye toolkit is importable,
the positions the toolkit produces for a generated molecule, the positions
read from a structure file, the outcome of the randomized remove_overlap call
(which terminates almost surely; its draw stream is absorbed into this
function), and the residue name read from a mol2 file. -/
structure Env where
  openeyeInstalled : Bool
  genPos : String → List Point
  filePos : String → List Point
  resolve : List Point → List (List Point) → List Point
  resname : String → Option String
  raw : RawYaml

def importErrorMsg : String :=
  "requested molecule generation from name or smiles but could not find OpenEye toolkit"

def overlapErrorMsg : String := "The given molecules have overlapping atoms!"

def emptyPositionsMsg : String := "attempt to get argmin of an empty sequence"

/-- The molecules of this setup whose positions are fixed: those described by
a structure file and not previously materialized from the OpenEye cache
(the file_mol_ids set of _setup_molecules; Python set semantics are embedded
as first-occurrence order). -/
def fileMolIds (st : BuilderState) (args : List String) : List String :=
  (args.filter (fun i => (st.molecules i).filepath.isSome && (st.oeMols i).isNone)).dedup

/-- Generation of the missing molecules with OpenEye (the dict-comprehension
update of self._oe_molecules in _setup_molecules).  The membership tests look
at the state as it was before the update, as the Python comprehension does;
generation from a chemical name or SMILES string raises when the OpenEye
toolkit is not importable (the source appends the ImportError text, omitted
here). -/
def generateMissing (env : Env) (st0 : BuilderState) (fm : List String) :
    List String → BuilderState → Except String BuilderState
  | [], st => .ok st
  | i :: rest, st =>
    if i ∉ fm ∧ st0.oeMols i = none then
      if env.openeyeInstalled then
        generateMissing env st0 fm rest (setOe st i (env.genPos i))
      else .error importErrorMsg
    else generateMissing env st0 fm rest st

/-- Fixed positions of one file molecule: the cached positions when
available, else the positions read from the molecule's structure file. -/
def fixedPosOf (env : Env) (st : BuilderState) (i : String) : List Point :=
  (st.fixedPosCache i).getD (env.filePos ((st.molecules i).filepath.getD ""))

/-- Fixed positions of this setup's file molecules, keyed by id. -/
def fixedPositionsOf (env : Env) (st : BuilderState) (fm : List String) :
    List (String × List Point) :=
  fm.map (fun i => (i, fixedPosOf env st i))

/-- The pairwise distance check of _setup_molecules: for every i, the minimum
(squared) distance between molecule i and all later fixed molecules must not
fall below (0.1)^2 = 1/100.  none from compute_min_dist2 (an empty position
array) models the numpy error. -/
def overlapCheck : List (List Point) → Except String Unit
  | [] => .ok ()
  | [_] => .ok ()
  | p :: q :: rest =>
    match compute_min_dist2 p (q :: rest) with
    | none => .error emptyPositionsMsg
    | some d => if d < 1/100 then .error overlapErrorMsg else overlapCheck (q :: rest)

/-- self._fixed_pos_cache.update(fixed_pos). -/
def updateCacheMany : BuilderState → List (String × List Point) → BuilderState
  | st, [] => st
  | st, (k, v) :: rest => updateCacheMany (setCache st k v) rest

/-- The overlap-resolution loop of _setup_molecules: every OpenEye-generated
molecule is repositioned away from the fixed groups collected so far (when
there are any), its cached positions are updated, and it then joins the fixed
groups for the molecules that follow. -/
def resolveLoop (env : Env) : List String → BuilderState → List (String × List Point) →
    BuilderState × List (String × List Point)
  | [], st, fp => (st, fp)
  | i :: rest, st, fp =>
    match st.oeMols i with
    | none => resolveLoop env rest st fp
    | some pos =>
      if fp.isEmpty then resolveLoop env rest st (fp ++ [(i, pos)])
      else
        let pos2 := env.resolve pos (fp.map Prod.snd)
        resolveLoop env rest (setOe st i pos2) (fp ++ [(i, pos2)])

/-- Actions of the processing tail of the save loop for one molecule: an
OpenEye-generated molecule is written out as mol2, then epik runs when a
protonation-state index is requested, then antechamber runs when
auto-parametrization is requested.  The epik and antechamber conditions read
the fields the earlier steps do not touch, so they are taken from the
original descriptor. -/
def savedActions (oe : Bool) (mol : Molecule) (mol_dir i : String) : List Action :=
  (if oe then [Action.writeMol2 i (pathJoin mol_dir (i ++ ".mol2"))] else [])
    ++ (if mol.epik.isSome then [Action.runEpik i (pathJoin mol_dir (i ++ "-epik.mol2"))] else [])
    ++ (if mol.parameters = some "antechamber" then [Action.runAntechamber i] else [])

/-- The in-place mutation of the molecule descriptor performed by the
processing tail of the save loop: each step rewrites filepath, and
antechamber also rewrites parameters. -/
def savedMolecule (oe : Bool) (mol : Molecule) (mol_dir i : String) : Molecule :=
  let m1 := if oe then { mol with filepath := some (pathJoin mol_dir (i ++ ".mol2")) } else mol
  let m2 := if mol.epik.isSome then
      { m1 with filepath := some (pathJoin mol_dir (i ++ "-epik.mol2")) } else m1
  if mol.parameters = some "antechamber" then
    { m2 with filepath := some (pathJoin mol_dir (i ++ ".gaff.mol2")),
              parameters := some (pathJoin mol_dir (i ++ ".frcmod")) }
  else m2

/-- The body of the save loop of _setup_molecules for one molecule id:
molecules neither OpenEye-generated nor requesting antechamber
parametrization are skipped; a missing setup directory is created, while an
existing one makes non-generated molecules skip; generated molecules are
always processed; the processed descriptor replaces the original in the
molecule table. -/
def saveOne (env : Env) (out : String) (st : BuilderState) (i : String) :
    List Action × BuilderState :=
  if ¬((st.oeMols i).isSome = true ∨ (st.molecules i).parameters = some "antechamber") then
    ([], st)
  else if st.fs (moleculeSetupDir out i) = false then
    (Action.makedirs (moleculeSetupDir out i)
        :: savedActions (st.oeMols i).isSome (st.molecules i) (moleculeSetupDir out i) i,
      setMol (mkdirFS (moleculeSetupDir out i) st) i
        (savedMolecule (st.oeMols i).isSome (st.molecules i) (moleculeSetupDir out i) i))
  else if (st.oeMols i) = none then ([], st)
  else
    (savedActions (st.oeMols i).isSome (st.molecules i) (moleculeSetupDir out i) i,
      setMol st i
        (savedMolecule (st.oeMols i).isSome (st.molecules i) (moleculeSetupDir out i) i))

/-- The save loop of _setup_molecules over all requested molecule ids. -/
def saveAll (env : Env) (out : String) : List String → BuilderState → List Action × BuilderState
  | [], st => ([], st)
  | i :: rest, st =>
    ((saveOne env out st i).1 ++ (saveAll env out rest (saveOne env out st i).2).1,
      (saveAll env out rest (saveOne env out st i).2).2)

/-- _setup_molecules: determine the fixed (file) molecules, generate the rest
with OpenEye, check that the fixed molecules do not overlap each other and
cache their positions (both only when the toolkit is importable), reposition
the generated molecules away from the fixed ones, and save every molecule
that needs processing. -/
def setup_molecules (env : Env) (st : BuilderState) (out : String) (args : List String) :
    Except String (List Action × BuilderState) :=
  let fm := fileMolIds st args
  match generateMissing env st fm args st with
  | .error e => .error e
  | .ok st1 =>
    if env.openeyeInstalled then
      let fp := fixedPositionsOf env st1 fm
      match overlapCheck (fp.map Prod.snd) with
      | .error e => .error e
      | .ok _ =>
        let st2 := updateCacheMany st1 fp
        let st3 := (resolveLoop env args st2 fp).1
        .ok (saveAll env out args st3)
    else
      let st3 := (resolveLoop env args st1 []).1
      .ok (saveAll env out args st3)

/-- _setup_system: an existing system directory is returned as is; otherwise
the directory is created, the two molecules are set up, and the tleap script
is exported and run (the in-memory assembly of the tleap script drives only
the external toolchain and is represented by the export/run actions). -/
def setup_system (env : Env) (st : BuilderState) (out : String) (c : Components) :
    Except String (String × List Action × BuilderState) :=
  let system_dir := systemSetupDir out c.receptor c.ligand c.solvent
  if st.fs system_dir = true then .ok (system_dir, [], st)
  else
    let st1 := mkdirFS system_dir st
    match setup_molecules env st1 out [c.receptor, c.ligand] with
    | .error e => .error e
    | .ok (macts, st2) =>
      .ok (system_dir,
        (Action.makedirs system_dir :: macts)
          ++ [Action.exportLeap (pathJoin system_dir "leap.in"), Action.runTLeap system_dir],
        st2)

/-- The uncaught KeyError raised by the plain dict subscript reading the
ligand descriptor's filepath when the key is absent (a name/SMILES ligand
whose descriptor was never materialized because a pre-existing system
directory made _setup_system return before _setup_molecules ran). -/
def keyErrorFilepathMsg : String := "KeyError: filepath"

/-- _run_experiment: an existing experiment directory makes the run resume
through the engine's resume entry point; otherwise the directory is created,
the reproducibility snapshot is written, the system is assembled, the ligand
selection expression is derived from the ligand descriptor's filepath (a
missing filepath key raises), and a new run is created and started. -/
def run_experiment (env : Env) (glob : Opts) (st : BuilderState) (c : Combination)
    (experiment_dir : String) : Except String (List Action × BuilderState) :=
  let out := effOutputDir glob c
  let results_dir := experimentDir out experiment_dir
  let exp_name := if experiment_dir = "" then "experiment" else baseName experiment_dir
  let logAct := Action.configLogger (pathJoin results_dir (exp_name ++ ".log"))
  if st.fs results_dir = true then
    .ok ([logAct, Action.yankResume results_dir, Action.yankRun results_dir], st)
  else
    let st1 := mkdirFS results_dir st
    let yamlAct := Action.writeYaml (pathJoin results_dir (exp_name ++ ".yaml"))
      (generate_yaml env.raw c)
    match setup_system env st1 out c.components with
    | .error e => .error e
    | .ok (system_dir, sysacts, st2) =>
      match (st2.molecules c.components.ligand).filepath with
      | none => .error keyErrorFilepathMsg
      | some fp =>
        let ligand_dsl := "resname " ++ ((env.resname fp).getD "MOL")
        .ok ([Action.makedirs results_dir, logAct, yamlAct] ++ sysacts
            ++ [Action.prepareAmber system_dir ligand_dsl, Action.yankCreate results_dir,
                Action.yankRun results_dir],
          st2)

/-- A pre-existing-output conflict found by the pre-flight check: the kind
label and directory that make up the head of the message, and the resume
option that would permit proceeding. -/
structure Conflict where
  kind : String
  dir : String
  opt : String
  deriving DecidableEq

/-- The message _check_setup_resume raises for a conflict. -/
def renderConflict (c : Conflict) : String :=
  c.kind ++ c.dir
    ++ " already exists; cowardly refusing to proceed. Move/delete directory or set "
    ++ c.opt ++ " options"

/-- The checks of one loop iteration of _check_setup_resume.  In the source a
molecule conflict is recorded for the receptor first and the ligand second, a
system conflict overwrites a molecule conflict, and an experiment conflict
overwrites either while switching the named remedy to resume_simulation; the
overwrite chain is flattened here into an if-chain reporting, with the same
priority, the conflict the source would raise. -/
def checkCombination (glob : Opts) (fs : String → Bool) (p : String × Combination) :
    Option Conflict :=
  if fs (experimentDir (effOutputDir glob p.2) p.1) = true ∧
      effResumeSimulation glob p.2 = false then
    some ⟨"experiment directory ", experimentDir (effOutputDir glob p.2) p.1,
      "resume_simulation"⟩
  else if fs (systemSetupDir (effOutputDir glob p.2) p.2.components.receptor
      p.2.components.ligand p.2.components.solvent) = true ∧
      effResumeSetup glob p.2 = false then
    some ⟨"system setup directory ", systemSetupDir (effOutputDir glob p.2)
      p.2.components.receptor p.2.components.ligand p.2.components.solvent, "resume_setup"⟩
  else if fs (moleculeSetupDir (effOutputDir glob p.2) p.2.components.receptor) = true ∧
      effResumeSetup glob p.2 = false then
    some ⟨"molecule setup directory ",
      moleculeSetupDir (effOutputDir glob p.2) p.2.components.receptor, "resume_setup"⟩
  else if fs (moleculeSetupDir (effOutputDir glob p.2) p.2.components.ligand) = true ∧
      effResumeSetup glob p.2 = false then
    some ⟨"molecule setup directory ",
      moleculeSetupDir (effOutputDir glob p.2) p.2.components.ligand, "resume_setup"⟩
  else none

/-- _check_setup_resume: the dry pass over every expanded combination; the
first conflicting combination aborts the build with the rendered message. -/
def check_setup_resume (glob : Opts) (fs : String → Bool)
    (combos : List (String × Combination)) : Except String Unit :=
  match combos.findSome? (checkCombination glob fs) with
  | some c => .error (renderConflict c)
  | none => .ok ()

/-- The sequential execution of every expanded experiment by
build_experiment's loop; an exception in one experiment aborts the rest. -/
def runAll (env : Env) (glob : Opts) :
    BuilderState → List (String × Combination) → Except String (List Action)
  | _, [] => .ok []
  | st, (sub, c) :: rest =>
    match run_experiment env glob st c sub with
    | .error e => .error e
    | .ok (a, st1) =>
      match runAll env glob st1 rest with
      | .error e => .error e
      | .ok b => .ok (a ++ b)

/-- build_experiment: the pre-flight resume check runs over every expanded
combination before any experiment executes; an error result carries no
actions, so an aborted build has created no directory and run no stage. -/
def build_experiment (env : Env) (glob : Opts) (st : BuilderState)
    (combos : List (String × Combination)) : Except String (List Action) :=
  match check_setup_resume glob st.fs combos with
  | .error e => .error e
  | .ok _ => runAll env glob st combos

/-! Concrete fixtures used by the closed instantiations below. -/

def demoMol : Molecule :=
  { filepath := none, name := none, smiles := none, parameters := none, epik := none }

def demoRaw : RawYaml :=
  { options := [("temperature", "300*kelvin")]
    molecules := [("r", "receptor-descriptor"), ("l", "ligand-descriptor"), ("x", "unused")]
    solvents := [("s", "solvent-descriptor")] }

def demoEnv : Env :=
  { openeyeInstalled := true
    genPos := fun _ => [((0 : ℚ), 0, 0)]
    filePos := fun _ => [((0 : ℚ), 0, 0)]
    resolve := fun p _ => p
    resname := fun _ => none
    raw := demoRaw }

def demoGlob : Opts :=
  { output_dir := "out", resume_setup := false, resume_simulation := false }

def demoCombo : Combination :=
  { components := { receptor := "r", ligand := "l", solvent := "s" }
    options := { output_dir := none, resume_setup := none, resume_simulation := none }
    rawOptions := [("temperature", "200*kelvin")] }

/-- A state where only the system setup directory of the demo combination
exists. -/
def stSysExists : BuilderState :=
  { fs := fun p => decide (p = "out/setup/systems/r_l_s")
    molecules := fun _ => demoMol
    oeMols := fun _ => none
    fixedPosCache := fun _ => none }

/-- A state where only the experiment directory of the demo combination
exists. -/
def stExpExists : BuilderState :=
  { fs := fun p => decide (p = "out/experiments/e")
    molecules := fun _ => demoMol
    oeMols := fun _ => none
    fixedPosCache := fun _ => none }

/-- C5: when the system setup directory already exists, _setup_system returns
that directory path with an empty action trace (no external toolchain call,
no file-system mutation) and the builder state unchanged. -/
theorem setup_system_skips_existing (env : Env) (st : BuilderState) (out : String)
    (c : Components)
    (h : st.fs (systemSetupDir out c.receptor c.ligand c.solvent) = true) :
    setup_system env st out c
      = .ok (systemSetupDir out c.receptor c.ligand c.solvent, [], st) := by
  simp [setup_system, h]

theorem setup_system_skips_existing_witness :
    stSysExists.fs (systemSetupDir "out" "r" "l" "s") = true ∧
    setup_system demoEnv stSysExists "out" ⟨"r", "l", "s"⟩
      = .ok (systemSetupDir "out" "r" "l" "s", [], stSysExists) :=
  ⟨by decide, setup_system_skips_existing demoEnv stSysExists "out" ⟨"r", "l", "s"⟩ (by decide)⟩

/-- A state where only the system setup directory of the demo combination
exists and the ligand descriptor already carries a structure-file path. -/
def stSysLig : BuilderState :=
  { fs := fun p => decide (p = "out/setup/systems/r_l_s")
    molecules := fun i => if i = "l" then
        { filepath := some "lig.mol2", name := none, smiles := none,
          parameters := some "leaprc.gaff", epik := none }
      else demoMol
    oeMols := fun _ => none
    fixedPosCache := fun _ => none }

/-- C6 counterexample: with the experiment directory absent, a pre-existing
system directory (so that _setup_system returns before _setup_molecules
runs) and a ligand descriptor without a filepath (a name/SMILES ligand not
yet materialized), _run_experiment raises the KeyError of the filepath read
instead of constructing and starting a new run. -/
theorem run_experiment_resume_or_build_counterexample :
    stSysExists.fs (experimentDir (effOutputDir demoGlob demoCombo) "e") = false ∧
    (stSysExists.molecules demoCombo.components.ligand).filepath = none ∧
    run_experiment demoEnv demoGlob stSysExists demoCombo "e" = .error keyErrorFilepathMsg :=
  ⟨by decide, rfl, rfl⟩

/-- C6 (amended): when the experiment's output directory already exists, the
run is handed to the external engine's resume entry point and nothing is
rebuilt (no reproducibility snapshot is written, no system assembly, no
directory creation, no new run construction); when it does not exist, the
directory is created, the snapshot is written, the system is assembled, and —
provided the ligand descriptor carries a structure-file path after assembly —
a new run is constructed and started, in that order. -/
theorem run_experiment_resume_or_build (env : Env) (glob : Opts) (st : BuilderState)
    (c : Combination) (expdir : String) :
    (st.fs (experimentDir (effOutputDir glob c) expdir) = true →
      run_experiment env glob st c expdir =
        .ok ([Action.configLogger (pathJoin (experimentDir (effOutputDir glob c) expdir)
                ((if expdir = "" then "experiment" else baseName expdir) ++ ".log")),
              Action.yankResume (experimentDir (effOutputDir glob c) expdir),
              Action.yankRun (experimentDir (effOutputDir glob c) expdir)], st) ∧
      (∀ acts st', run_experiment env glob st c expdir = .ok (acts, st') →
        Action.yankResume (experimentDir (effOutputDir glob c) expdir) ∈ acts ∧
        (∀ p snap, Action.writeYaml p snap ∉ acts) ∧
        (∀ d, Action.runTLeap d ∉ acts) ∧
        (∀ d, Action.makedirs d ∉ acts) ∧
        (∀ d, Action.yankCreate d ∉ acts))) ∧
    (st.fs (experimentDir (effOutputDir glob c) expdir) = false →
      ∀ system_dir sysacts st2 fp,
        setup_system env (mkdirFS (experimentDir (effOutputDir glob c) expdir) st)
            (effOutputDir glob c) c.components = .ok (system_dir, sysacts, st2) →
        (st2.molecules c.components.ligand).filepath = some fp →
        run_experiment env glob st c expdir =
          .ok ([Action.makedirs (experimentDir (effOutputDir glob c) expdir),
                Action.configLogger (pathJoin (experimentDir (effOutputDir glob c) expdir)
                  ((if expdir = "" then "experiment" else baseName expdir) ++ ".log")),
                Action.writeYaml (pathJoin (experimentDir (effOutputDir glob c) expdir)
                  ((if expdir = "" then "experiment" else baseName expdir) ++ ".yaml"))
                  (generate_yaml env.raw c)] ++ sysacts
              ++ [Action.prepareAmber system_dir ("resname " ++ ((env.resname fp).getD "MOL")),
                  Action.yankCreate (experimentDir (effOutputDir glob c) expdir),
                  Action.yankRun (experimentDir (effOutputDir glob c) expdir)],
            st2)) := by
  constructor
  · intro hfs
    have h1 : run_experiment env glob st c expdir =
        .ok ([Action.configLogger (pathJoin (experimentDir (effOutputDir glob c) expdir)
                ((if expdir = "" then "experiment" else baseName expdir) ++ ".log")),
              Action.yankResume (experimentDir (effOutputDir glob c) expdir),
              Action.yankRun (experimentDir (effOutputDir glob c) expdir)], st) := by
      simp [run_experiment, hfs]
    refine ⟨h1, ?_⟩
    intro acts st' h2
    rw [h1] at h2
    obtain ⟨hacts, -⟩ : acts = [Action.configLogger (pathJoin (experimentDir (effOutputDir glob c) expdir)
          ((if expdir = "" then "experiment" else baseName expdir) ++ ".log")),
        Action.yankResume (experimentDir (effOutputDir glob c) expdir),
        Action.yankRun (experimentDir (effOutputDir glob c) expdir)] ∧ st' = st := by
      simpa using h2.symm
    subst hacts
    refine ⟨by simp, ?_, ?_, ?_, ?_⟩ <;> intros <;> simp
  · intro hfs system_dir sysacts st2 fp hsys hfp
    simp only [run_experiment, hfs, Bool.false_eq_true, if_false, hsys, hfp]

theorem run_experiment_resume_or_build_witness :
    (run_experiment demoEnv demoGlob stExpExists demoCombo "e" =
      .ok ([Action.configLogger (pathJoin (experimentDir (effOutputDir demoGlob demoCombo) "e")
              ((if "e" = "" then "experiment" else baseName "e") ++ ".log")),
            Action.yankResume (experimentDir (effOutputDir demoGlob demoCombo) "e"),
            Action.yankRun (experimentDir (effOutputDir demoGlob demoCombo) "e")],
        stExpExists)) ∧
    (run_experiment demoEnv demoGlob stSysLig demoCombo "e" =
      .ok ([Action.makedirs (experimentDir (effOutputDir demoGlob demoCombo) "e"),
            Action.configLogger (pathJoin (experimentDir (effOutputDir demoGlob demoCombo) "e")
              ((if "e" = "" then "experiment" else baseName "e") ++ ".log")),
            Action.writeYaml (pathJoin (experimentDir (effOutputDir demoGlob demoCombo) "e")
              ((if "e" = "" then "experiment" else baseName "e") ++ ".yaml"))
              (generate_yaml demoEnv.raw demoCombo)] ++ []
          ++ [Action.prepareAmber (systemSetupDir "out" "r" "l" "s") ("resname "
                ++ ((demoEnv.resname "lig.mol2").getD "MOL")),
              Action.yankCreate (experimentDir (effOutputDir demoGlob demoCombo) "e"),
              Action.yankRun (experimentDir (effOutputDir demoGlob demoCombo) "e")],
        mkdirFS (experimentDir (effOutputDir demoGlob demoCombo) "e") stSysLig)) :=
  ⟨((run_experiment_resume_or_build demoEnv demoGlob stExpExists demoCombo "e").1 (by decide)).1,
   (run_experiment_resume_or_build demoEnv demoGlob stSysLig demoCombo "e").2 (by decide)
     (systemSetupDir "out" "r" "l" "s") []
     (mkdirFS (experimentDir (effOutputDir demoGlob demoCombo) "e") stSysLig) "lig.mol2"
     rfl rfl⟩

/-! Dictionary-lookup lemmas for the reproducibility snapshot. -/

theorem lookupA_append {α : Type} (l1 l2 : List (String × α)) (k : String) :
    lookupA (l1 ++ l2) k =
      match lookupA l1 k with
      | some v => some v
      | none => lookupA l2 k := by
  induction l1 with
  | nil => simp [lookupA]
  | cons p t ih =>
    cases p with
    | mk k0 v0 =>
      by_cases h : k = k0
      · simp [lookupA, h]
      · simp [lookupA, h, ih]

theorem lookupA_update_map {α : Type} (u l : List (String × α)) (k : String) :
    lookupA (l.map (fun p => (p.1, (lookupA u p.1).getD p.2))) k
      = (lookupA l k).map (fun v => (lookupA u k).getD v) := by
  induction l with
  | nil => simp [lookupA]
  | cons p t ih =>
    cases p with
    | mk k0 v0 =>
      by_cases h : k = k0
      · subst h; simp [lookupA]
      · simp [lookupA, h, ih]

theorem lookupA_filter_key {α : Type} (q : String → Bool) (l : List (String × α)) (k : String) :
    lookupA (l.filter (fun p => q p.1)) k = if q k = true then lookupA l k else none := by
  induction l with
  | nil => simp [lookupA]
  | cons p t ih =>
    cases p with
    | mk k0 v0 =>
      by_cases hq : q k0 = true
      · by_cases h : k = k0
        · subst h; simp [List.filter_cons, hq, lookupA]
        · simp [List.filter_cons, hq, lookupA, h, ih]
      · by_cases h : k = k0
        · subst h; simp [List.filter_cons, hq, lookupA, ih]
        · simp [List.filter_cons, hq, lookupA, h, ih]

theorem lookupA_updateAssoc {α : Type} (base upd : List (String × α)) (k : String) :
    lookupA (updateAssoc base upd) k
      = if (lookupA upd k).isSome = true then lookupA upd k else lookupA base k := by
  unfold updateAssoc
  rw [lookupA_append, lookupA_update_map]
  rw [show (fun p : String × α => (lookupA base p.1).isNone)
      = (fun p : String × α => (fun s => (lookupA base s).isNone) p.1) from rfl]
  rw [lookupA_filter_key (fun s => (lookupA base s).isNone)]
  cases hb : lookupA base k with
  | some v => cases hu : lookupA upd k <;> simp [hb, hu]
  | none => cases hu : lookupA upd k <;> simp [hb, hu]

/-- C8: the snapshot written for a built experiment contains exactly the
shallow merge of the raw global options with the experiment's options
(experiment value winning per key), only the molecules and solvents whose ids
appear among the experiment's components, and the experiment's component
block; and in a non-resumed run the snapshot write action precedes all system
assembly actions. -/
theorem generate_yaml_snapshot (raw : RawYaml) (c : Combination) :
    (∀ k, lookupA (generate_yaml raw c).options k
        = if (lookupA c.rawOptions k).isSome = true then lookupA c.rawOptions k
          else lookupA raw.options k) ∧
    (∀ i, lookupA (generate_yaml raw c).molecules i
        = if i ∈ [c.components.receptor, c.components.ligand, c.components.solvent]
          then lookupA raw.molecules i else none) ∧
    (∀ i, lookupA (generate_yaml raw c).solvents i
        = if i ∈ [c.components.receptor, c.components.ligand, c.components.solvent]
          then lookupA raw.solvents i else none) ∧
    (generate_yaml raw c).experiment = c.components ∧
    (∀ (env : Env) (glob : Opts) (st : BuilderState) (expdir : String)
        (acts : List Action) (st2 : BuilderState),
      env.raw = raw →
      st.fs (experimentDir (effOutputDir glob c) expdir) = false →
      run_experiment env glob st c expdir = .ok (acts, st2) →
      ∃ system_dir sysacts rest,
        setup_system env (mkdirFS (experimentDir (effOutputDir glob c) expdir) st)
            (effOutputDir glob c) c.components = .ok (system_dir, sysacts, st2) ∧
        acts = [Action.makedirs (experimentDir (effOutputDir glob c) expdir),
                Action.configLogger (pathJoin (experimentDir (effOutputDir glob c) expdir)
                  ((if expdir = "" then "experiment" else baseName expdir) ++ ".log")),
                Action.writeYaml (pathJoin (experimentDir (effOutputDir glob c) expdir)
                  ((if expdir = "" then "experiment" else baseName expdir) ++ ".yaml"))
                  (generate_yaml raw c)] ++ sysacts ++ rest) := by
  refine ⟨?_, ?_, ?_, rfl, ?_⟩
  · intro k
    exact lookupA_updateAssoc raw.options c.rawOptions k
  · intro i
    have := lookupA_filter_key
      (fun s => decide (s ∈ [c.components.receptor, c.components.ligand, c.components.solvent]))
      raw.molecules i
    simpa [generate_yaml] using this
  · intro i
    have := lookupA_filter_key
      (fun s => decide (s ∈ [c.components.receptor, c.components.ligand, c.components.solvent]))
      raw.solvents i
    simpa [generate_yaml] using this
  · intro env glob st expdir acts st2 hraw hfs h
    simp only [run_experiment, hfs, Bool.false_eq_true, if_false] at h
    split at h
    · cases h
    · rename_i system_dir sysacts s2 hsys
      split at h
      · cases h
      · rename_i fp hfp
        injection h with hp
        have hacts : ([Action.makedirs (experimentDir (effOutputDir glob c) expdir),
            Action.configLogger (pathJoin (experimentDir (effOutputDir glob c) expdir)
              ((if expdir = "" then "experiment" else baseName expdir) ++ ".log")),
            Action.writeYaml (pathJoin (experimentDir (effOutputDir glob c) expdir)
              ((if expdir = "" then "experiment" else baseName expdir) ++ ".yaml"))
              (generate_yaml env.raw c)] ++ sysacts
            ++ [Action.prepareAmber system_dir ("resname " ++ ((env.resname fp).getD "MOL")),
                Action.yankCreate (experimentDir (effOutputDir glob c) expdir),
                Action.yankRun (experimentDir (effOutputDir glob c) expdir)]) = acts :=
          congrArg Prod.fst hp
        have hst : s2 = st2 := congrArg Prod.snd hp
        refine ⟨system_dir, sysacts,
          [Action.prepareAmber system_dir ("resname " ++ ((env.resname fp).getD "MOL")),
           Action.yankCreate (experimentDir (effOutputDir glob c) expdir),
           Action.yankRun (experimentDir (effOutputDir glob c) expdir)], ?_, ?_⟩
        · rw [← hst]
          exact hsys
        · rw [← hacts, hraw]

theorem generate_yaml_snapshot_witness :
    (lookupA (generate_yaml demoRaw demoCombo).options "temperature"
      = if (lookupA demoCombo.rawOptions "temperature").isSome = true
        then lookupA demoCombo.rawOptions "temperature"
        else lookupA demoRaw.options "temperature") ∧
    (lookupA (generate_yaml demoRaw demoCombo).molecules "x"
      = if "x" ∈ [demoCombo.components.receptor, demoCombo.components.ligand,
            demoCombo.components.solvent]
        then lookupA demoRaw.molecules "x" else none) ∧
    (generate_yaml demoRaw demoCombo).experiment = demoCombo.components ∧
    (∃ system_dir sysacts rest,
      setup_system demoEnv
          (mkdirFS (experimentDir (effOutputDir demoGlob demoCombo) "e") stSysLig)
          (effOutputDir demoGlob demoCombo) demoCombo.components
        = .ok (system_dir, sysacts,
            mkdirFS (experimentDir (effOutputDir demoGlob demoCombo) "e") stSysLig) ∧
      ([Action.makedirs (experimentDir (effOutputDir demoGlob demoCombo) "e"),
        Action.configLogger (pathJoin (experimentDir (effOutputDir demoGlob demoCombo) "e")
          ((if "e" = "" then "experiment" else baseName "e") ++ ".log")),
        Action.writeYaml (pathJoin (experimentDir (effOutputDir demoGlob demoCombo) "e")
          ((if "e" = "" then "experiment" else baseName "e") ++ ".yaml"))
          (generate_yaml demoEnv.raw demoCombo)] ++ []
          ++ [Action.prepareAmber (systemSetupDir "out" "r" "l" "s") ("resname "
                ++ ((demoEnv.resname "lig.mol2").getD "MOL")),
              Action.yankCreate (experimentDir (effOutputDir demoGlob demoCombo) "e"),
              Action.yankRun (experimentDir (effOutputDir demoGlob demoCombo) "e")])
        = [Action.makedirs (experimentDir (effOutputDir demoGlob demoCombo) "e"),
           Action.configLogger (pathJoin (experimentDir (effOutputDir demoGlob demoCombo) "e")
             ((if "e" = "" then "experiment" else baseName "e") ++ ".log")),
           Action.writeYaml (pathJoin (experimentDir (effOutputDir demoGlob demoCombo) "e")
             ((if "e" = "" then "experiment" else baseName "e") ++ ".yaml"))
             (generate_yaml demoRaw demoCombo)] ++ sysacts ++ rest) :=
  ⟨(generate_yaml_snapshot demoRaw demoCombo).1 "temperature",
   (generate_yaml_snapshot demoRaw demoCombo).2.1 "x",
   (generate_yaml_snapshot demoRaw demoCombo).2.2.2.1,
   (generate_yaml_snapshot demoRaw demoCombo).2.2.2.2 demoEnv demoGlob stSysLig "e"
     ([Action.makedirs (experimentDir (effOutputDir demoGlob demoCombo) "e"),
       Action.configLogger (pathJoin (experimentDir (effOutputDir demoGlob demoCombo) "e")
         ((if "e" = "" then "experiment" else baseName "e") ++ ".log")),
       Action.writeYaml (pathJoin (experimentDir (effOutputDir demoGlob demoCombo) "e")
         ((if "e" = "" then "experiment" else baseName "e") ++ ".yaml"))
         (generate_yaml demoEnv.raw demoCombo)] ++ []
        ++ [Action.prepareAmber (systemSetupDir "out" "r" "l" "s") ("resname "
              ++ ((demoEnv.resname "lig.mol2").getD "MOL")),
            Action.yankCreate (experimentDir (effOutputDir demoGlob demoCombo) "e"),
            Action.yankRun (experimentDir (effOutputDir demoGlob demoCombo) "e")])
     (mkdirFS (experimentDir (effOutputDir demoGlob demoCombo) "e") stSysLig)
     rfl (by decide) rfl⟩

/-! The pre-flight resume check (claim C2). -/

/-- A combination has a pre-existing-output conflict: a molecule or system
setup directory exists while the effective resume_setup is off, or the
experiment directory exists while the effective resume_simulation is off. -/
def conflictExists (glob : Opts) (fs : String → Bool) (p : String × Combination) : Prop :=
  (effResumeSetup glob p.2 = false ∧
    (fs (moleculeSetupDir (effOutputDir glob p.2) p.2.components.receptor) = true ∨
     fs (moleculeSetupDir (effOutputDir glob p.2) p.2.components.ligand) = true ∨
     fs (systemSetupDir (effOutputDir glob p.2) p.2.components.receptor
        p.2.components.ligand p.2.components.solvent) = true))
  ∨ (effResumeSimulation glob p.2 = false ∧
      fs (experimentDir (effOutputDir glob p.2) p.1) = true)

theorem findSome?_isSome_of_mem {α β : Type} (f : α → Option β) (l : List α) (x : α)
    (hx : x ∈ l) (h : (f x).isSome = true) : ∃ c, l.findSome? f = some c := by
  induction l with
  | nil => cases hx
  | cons a t ih =>
    cases hf : f a with
    | some b => exact ⟨b, by simp [List.findSome?_cons, hf]⟩
    | none =>
      rcases List.mem_cons.mp hx with rfl | hx'
      · rw [hf] at h; cases h
      · rcases ih hx' with ⟨c, hc⟩
        exact ⟨c, by simp [List.findSome?_cons, hf, hc]⟩

theorem findSome?_eq_some_spec {α β : Type} (f : α → Option β) (l : List α) (c : β)
    (h : l.findSome? f = some c) : ∃ x ∈ l, f x = some c := by
  induction l with
  | nil => simp [List.findSome?] at h
  | cons a t ih =>
    cases hf : f a with
    | some b =>
      simp only [List.findSome?_cons, hf] at h
      exact ⟨a, List.mem_cons_self a t, hf.trans h⟩
    | none =>
      simp only [List.findSome?_cons, hf] at h
      rcases ih h with ⟨x, hx, hfx⟩
      exact ⟨x, List.mem_cons_of_mem a hx, hfx⟩

theorem checkCombination_isSome (glob : Opts) (fs : String → Bool) (p : String × Combination)
    (h : conflictExists glob fs p) : (checkCombination glob fs p).isSome = true := by
  unfold checkCombination
  split
  · simp
  · rename_i hexp
    split
    · simp
    · rename_i hsys
      split
      · simp
      · rename_i hrd
        split
        · simp
        · rename_i hld
          exfalso
          unfold conflictExists at h
          rcases h with ⟨hrs, hr | hl | hs⟩ | ⟨hrsim, he⟩
          · exact hrd ⟨hr, hrs⟩
          · exact hld ⟨hl, hrs⟩
          · exact hsys ⟨hs, hrs⟩
          · exact hexp ⟨he, hrsim⟩

theorem checkCombination_some_spec (glob : Opts) (fs : String → Bool)
    (p : String × Combination) (c : Conflict)
    (h : checkCombination glob fs p = some c) :
    fs c.dir = true ∧
    ((c.opt = "resume_setup" ∧ effResumeSetup glob p.2 = false ∧
       (c.dir = moleculeSetupDir (effOutputDir glob p.2) p.2.components.receptor ∨
        c.dir = moleculeSetupDir (effOutputDir glob p.2) p.2.components.ligand ∨
        c.dir = systemSetupDir (effOutputDir glob p.2) p.2.components.receptor
          p.2.components.ligand p.2.components.solvent)) ∨
     (c.opt = "resume_simulation" ∧ effResumeSimulation glob p.2 = false ∧
       c.dir = experimentDir (effOutputDir glob p.2) p.1)) := by
  unfold checkCombination at h
  split at h
  · rename_i hcond
    cases Option.some.inj h
    exact ⟨hcond.1, Or.inr ⟨rfl, hcond.2, rfl⟩⟩
  · split at h
    · rename_i hcond
      cases Option.some.inj h
      exact ⟨hcond.1, Or.inl ⟨rfl, hcond.2, Or.inr (Or.inr rfl)⟩⟩
    · split at h
      · rename_i hcond
        cases Option.some.inj h
        exact ⟨hcond.1, Or.inl ⟨rfl, hcond.2, Or.inl rfl⟩⟩
      · split at h
        · rename_i hcond
          cases Option.some.inj h
          exact ⟨hcond.1, Or.inl ⟨rfl, hcond.2, Or.inr (Or.inl rfl)⟩⟩
        · cases h

/-- C2: when any expanded combination has a setup directory conflict (with
resume_setup off) or an experiment directory conflict (with
resume_simulation off), the whole build aborts with an error whose message
names a colliding directory that actually exists together with the resume
option that would permit proceeding; an error result of build_experiment
carries no actions, so no directory was created and no stage was run. -/
theorem build_experiment_preflight (env : Env) (glob : Opts) (st : BuilderState)
    (combos : List (String × Combination))
    (h : ∃ p ∈ combos, conflictExists glob st.fs p) :
    ∃ c : Conflict,
      build_experiment env glob st combos = .error (c.kind ++ c.dir
        ++ " already exists; cowardly refusing to proceed. Move/delete directory or set "
        ++ c.opt ++ " options") ∧
      st.fs c.dir = true ∧
      ∃ p ∈ combos,
        ((c.opt = "resume_setup" ∧ effResumeSetup glob p.2 = false ∧
           (c.dir = moleculeSetupDir (effOutputDir glob p.2) p.2.components.receptor ∨
            c.dir = moleculeSetupDir (effOutputDir glob p.2) p.2.components.ligand ∨
            c.dir = systemSetupDir (effOutputDir glob p.2) p.2.components.receptor
              p.2.components.ligand p.2.components.solvent)) ∨
         (c.opt = "resume_simulation" ∧ effResumeSimulation glob p.2 = false ∧
           c.dir = experimentDir (effOutputDir glob p.2) p.1)) := by
  rcases h with ⟨p, hp, hcf⟩
  rcases findSome?_isSome_of_mem (checkCombination glob st.fs) combos p hp
    (checkCombination_isSome glob st.fs p hcf) with ⟨c, hc⟩
  rcases findSome?_eq_some_spec (checkCombination glob st.fs) combos c hc with ⟨q, hq, hqc⟩
  have hspec := checkCombination_some_spec glob st.fs q c hqc
  refine ⟨c, ?_, hspec.1, q, hq, hspec.2⟩
  simp [build_experiment, check_setup_resume, hc, renderConflict]

theorem build_experiment_preflight_witness :
    ∃ c : Conflict,
      build_experiment demoEnv demoGlob stExpExists [("e", demoCombo)] = .error (c.kind ++ c.dir
        ++ " already exists; cowardly refusing to proceed. Move/delete directory or set "
        ++ c.opt ++ " options") ∧
      stExpExists.fs c.dir = true ∧
      ∃ p ∈ [("e", demoCombo)],
        ((c.opt = "resume_setup" ∧ effResumeSetup demoGlob p.2 = false ∧
           (c.dir = moleculeSetupDir (effOutputDir demoGlob p.2) p.2.components.receptor ∨
            c.dir = moleculeSetupDir (effOutputDir demoGlob p.2) p.2.components.ligand ∨
            c.dir = systemSetupDir (effOutputDir demoGlob p.2) p.2.components.receptor
              p.2.components.ligand p.2.components.solvent)) ∨
         (c.opt = "resume_simulation" ∧ effResumeSimulation demoGlob p.2 = false ∧
           c.dir = experimentDir (effOutputDir demoGlob p.2) p.1)) :=
  build_experiment_preflight demoEnv demoGlob stExpExists [("e", demoCombo)]
    ⟨("e", demoCombo), List.mem_singleton.mpr rfl,
      Or.inr ⟨rfl, by decide⟩⟩

/-! Structural lemmas about the molecule-setup pipeline. -/

theorem string_append_left_cancel (s a b : String) (h : s ++ a = s ++ b) : a = b := by
  have hd := congrArg String.data h
  rw [String.data_append, String.data_append] at hd
  have := List.append_cancel_left hd
  cases a with
  | mk da =>
    cases b with
    | mk db =>
      simp only at this
      rw [this]

theorem pathJoin_right_inj (base a b : String) (h : pathJoin base a = pathJoin base b) :
    a = b := by
  unfold pathJoin at h
  by_cases h0 : base = ""
  · rw [if_pos h0, if_pos h0] at h
    exact h
  · rw [if_neg h0, if_neg h0] at h
    by_cases h1 : endsWithSlash base = true
    · rw [if_pos h1, if_pos h1] at h
      exact string_append_left_cancel _ _ _ h
    · rw [if_neg h1, if_neg h1] at h
      exact string_append_left_cancel _ _ _ h

theorem moleculeSetupDir_inj (out a b : String)
    (h : moleculeSetupDir out a = moleculeSetupDir out b) : a = b :=
  pathJoin_right_inj (pathJoin out "setup/molecules") a b h

theorem mem_fileMolIds (st : BuilderState) (args : List String) (i : String) :
    i ∈ fileMolIds st args ↔
      i ∈ args ∧ (st.molecules i).filepath.isSome = true ∧ st.oeMols i = none := by
  unfold fileMolIds
  rw [List.mem_dedup, List.mem_filter]
  simp [Option.isNone_iff_eq_none, and_assoc]

theorem setOe_oeMols_isSome (st : BuilderState) (j : String) (p : List Point) (i : String)
    (h : (st.oeMols i).isSome = true) : ((setOe st j p).oeMols i).isSome = true := by
  by_cases hij : i = j <;> simp [setOe, hij, h]

theorem setOe_oeMols_ne (st : BuilderState) (j : String) (p : List Point) (i : String)
    (h : i ≠ j) : (setOe st j p).oeMols i = st.oeMols i := by
  simp [setOe, h]

theorem generateMissing_ok (env : Env) (st0 : BuilderState) (fm : List String)
    (hoe : env.openeyeInstalled = true) (ids : List String) :
    ∀ st, ∃ st', generateMissing env st0 fm ids st = .ok st' := by
  induction ids with
  | nil => intro st; exact ⟨st, rfl⟩
  | cons i rest ih =>
    intro st
    by_cases hc : i ∉ fm ∧ st0.oeMols i = none
    · rcases ih (setOe st i (env.genPos i)) with ⟨st', h⟩
      exact ⟨st', by simp only [generateMissing, if_pos hc, hoe, if_true]; exact h⟩
    · rcases ih st with ⟨st', h⟩
      exact ⟨st', by simp only [generateMissing, if_neg hc]; exact h⟩

theorem generateMissing_fields (env : Env) (st0 : BuilderState) (fm : List String) :
    ∀ (ids : List String) (st st' : BuilderState),
      generateMissing env st0 fm ids st = .ok st' →
      st'.fs = st.fs ∧ st'.molecules = st.molecules ∧ st'.fixedPosCache = st.fixedPosCache := by
  intro ids
  induction ids with
  | nil =>
    intro st st' h
    have h' : (Except.ok st : Except String BuilderState) = .ok st' := h
    cases h'
    exact ⟨rfl, rfl, rfl⟩
  | cons i rest ih =>
    intro st st' h
    simp only [generateMissing] at h
    split at h
    · split at h
      · exact ih (setOe st i (env.genPos i)) st' h
      · cases h
    · exact ih st st' h

theorem generateMissing_oe_mono (env : Env) (st0 : BuilderState) (fm : List String) :
    ∀ (ids : List String) (st st' : BuilderState),
      generateMissing env st0 fm ids st = .ok st' →
      ∀ i, (st.oeMols i).isSome = true → (st'.oeMols i).isSome = true := by
  intro ids
  induction ids with
  | nil =>
    intro st st' h i hi
    have h' : (Except.ok st : Except String BuilderState) = .ok st' := h
    cases h'
    exact hi
  | cons j rest ih =>
    intro st st' h i hi
    simp only [generateMissing] at h
    split at h
    · split at h
      · exact ih (setOe st j (env.genPos j)) st' h i
          (setOe_oeMols_isSome st j (env.genPos j) i hi)
      · cases h
    · exact ih st st' h i hi

theorem generateMissing_oe_fm (env : Env) (st0 : BuilderState) (fm : List String) :
    ∀ (ids : List String) (st st' : BuilderState),
      generateMissing env st0 fm ids st = .ok st' →
      ∀ i ∈ fm, st'.oeMols i = st.oeMols i := by
  intro ids
  induction ids with
  | nil =>
    intro st st' h i _
    have h' : (Except.ok st : Except String BuilderState) = .ok st' := h
    cases h'
    rfl
  | cons j rest ih =>
    intro st st' h i hifm
    simp only [generateMissing] at h
    split at h
    · rename_i hc
      split at h
      · have hij : i ≠ j := fun hh => hc.1 (hh ▸ hifm)
        rw [ih (setOe st j (env.genPos j)) st' h i hifm,
          setOe_oeMols_ne st j (env.genPos j) i hij]
      · cases h
    · exact ih st st' h i hifm

theorem generateMissing_oe_gen (env : Env) (st0 : BuilderState) (fm : List String) :
    ∀ (ids : List String) (st st' : BuilderState),
      generateMissing env st0 fm ids st = .ok st' →
      ∀ i ∈ ids, i ∉ fm → st0.oeMols i = none → (st'.oeMols i).isSome = true := by
  intro ids
  induction ids with
  | nil => intro st st' h i hi; cases hi
  | cons j rest ih =>
    intro st st' h i hi hfm h0
    simp only [generateMissing] at h
    by_cases hij : i = j
    · subst hij
      rw [if_pos ⟨hfm, h0⟩] at h
      split at h
      · exact generateMissing_oe_mono env st0 fm rest (setOe st i (env.genPos i)) st' h i
          (by simp [setOe])
      · cases h
    · have hi' : i ∈ rest := by
        rcases List.mem_cons.mp hi with h' | h'
        · exact absurd h' hij
        · exact h'
      split at h
      · split at h
        · exact ih (setOe st j (env.genPos j)) st' h i hi' hfm h0
        · cases h
      · exact ih st st' h i hi' hfm h0

theorem updateCacheMany_fields :
    ∀ (l : List (String × List Point)) (st : BuilderState),
      (updateCacheMany st l).fs = st.fs ∧ (updateCacheMany st l).molecules = st.molecules ∧
      (updateCacheMany st l).oeMols = st.oeMols := by
  intro l
  induction l with
  | nil => intro st; exact ⟨rfl, rfl, rfl⟩
  | cons p rest ih =>
    intro st
    cases p with
    | mk k v => exact ih (setCache st k v)

theorem updateCacheMany_cache_not_mem :
    ∀ (l : List (String × List Point)) (st : BuilderState) (k : String),
      k ∉ l.map Prod.fst →
      (updateCacheMany st l).fixedPosCache k = st.fixedPosCache k := by
  intro l
  induction l with
  | nil => intro st k _; rfl
  | cons p rest ih =>
    intro st k hk
    cases p with
    | mk k0 v0 =>
      have hne : k ≠ k0 := fun hh => hk (by simp [hh])
      have hrest : k ∉ rest.map Prod.fst := fun hh => hk (by simp [hh])
      rw [show updateCacheMany st ((k0, v0) :: rest) = updateCacheMany (setCache st k0 v0) rest
        from rfl]
      rw [ih _ k hrest]
      simp [setCache, hne]

theorem updateCacheMany_cache_mem :
    ∀ (l : List (String × List Point)) (st : BuilderState) (k : String) (v : List Point),
      (k, v) ∈ l → (l.map Prod.fst).Nodup →
      (updateCacheMany st l).fixedPosCache k = some v := by
  intro l
  induction l with
  | nil => intro st k v hm; cases hm
  | cons p rest ih =>
    intro st k v hm hnd
    cases p with
    | mk k0 v0 =>
      rw [List.map_cons] at hnd
      have h2 := List.nodup_cons.mp hnd
      rcases List.mem_cons.mp hm with heq | hm'
      · cases heq
        rw [show updateCacheMany st ((k, v) :: rest) = updateCacheMany (setCache st k v) rest
          from rfl]
        rw [updateCacheMany_cache_not_mem rest _ k h2.1]
        simp [setCache]
      · exact ih (setCache st k0 v0) k v hm' h2.2

theorem resolveLoop_fields (env : Env) :
    ∀ (ids : List String) (st : BuilderState) (fp : List (String × List Point)),
      ((resolveLoop env ids st fp).1).fs = st.fs ∧
      ((resolveLoop env ids st fp).1).molecules = st.molecules ∧
      ((resolveLoop env ids st fp).1).fixedPosCache = st.fixedPosCache := by
  intro ids
  induction ids with
  | nil => intro st fp; exact ⟨rfl, rfl, rfl⟩
  | cons j rest ih =>
    intro st fp
    simp only [resolveLoop]
    split
    · exact ih st fp
    · split
      · exact ih st _
      · exact ih (setOe st j _) _

theorem resolveLoop_oe_none (env : Env) :
    ∀ (ids : List String) (st : BuilderState) (fp : List (String × List Point)) (i : String),
      st.oeMols i = none → ((resolveLoop env ids st fp).1).oeMols i = none := by
  intro ids
  induction ids with
  | nil => intro st fp i hi; exact hi
  | cons j rest ih =>
    intro st fp i hi
    simp only [resolveLoop]
    split
    · exact ih st fp i hi
    · rename_i pos hj
      have hij : i ≠ j := fun hh => by rw [hh, hj] at hi; cases hi
      split
      · exact ih st _ i hi
      · exact ih (setOe st j _) _ i (by rw [setOe_oeMols_ne st j _ i hij]; exact hi)

theorem resolveLoop_oe_isSome (env : Env) :
    ∀ (ids : List String) (st : BuilderState) (fp : List (String × List Point)) (i : String),
      (st.oeMols i).isSome = true → (((resolveLoop env ids st fp).1).oeMols i).isSome = true := by
  intro ids
  induction ids with
  | nil => intro st fp i hi; exact hi
  | cons j rest ih =>
    intro st fp i hi
    simp only [resolveLoop]
    split
    · exact ih st fp i hi
    · split
      · exact ih st _ i hi
      · exact ih (setOe st j _) _ i (setOe_oeMols_isSome st j _ i hi)

theorem saveOne_oeMols (env : Env) (out : String) (st : BuilderState) (i : String) :
    ((saveOne env out st i).2).oeMols = st.oeMols := by
  unfold saveOne
  split
  · rfl
  · split
    · rfl
    · split
      · rfl
      · rfl

theorem saveOne_cache (env : Env) (out : String) (st : BuilderState) (i : String) :
    ((saveOne env out st i).2).fixedPosCache = st.fixedPosCache := by
  unfold saveOne
  split
  · rfl
  · split
    · rfl
    · split
      · rfl
      · rfl

theorem saveOne_fs_true (env : Env) (out : String) (st : BuilderState) (i d : String)
    (h : st.fs d = true) : ((saveOne env out st i).2).fs d = true := by
  unfold saveOne
  split
  · exact h
  · split
    · show (mkdirFS (moleculeSetupDir out i) st).fs d = true
      unfold mkdirFS
      by_cases hd : d = moleculeSetupDir out i <;> simp [hd, h]
    · split
      · exact h
      · exact h

theorem saveOne_skips (env : Env) (out : String) (st : BuilderState) (i : String)
    (hn : st.oeMols i = none) (hf : st.fs (moleculeSetupDir out i) = true) :
    saveOne env out st i = ([], st) := by
  by_cases hp : ¬((st.oeMols i).isSome = true ∨ (st.molecules i).parameters = some "antechamber")
  · simp [saveOne, hp]
  · simp [saveOne, hp, hf, hn]

theorem saveOne_writes (env : Env) (out : String) (st : BuilderState) (i : String)
    (hoe : (st.oeMols i).isSome = true) :
    Action.writeMol2 i (pathJoin (moleculeSetupDir out i) (i ++ ".mol2"))
      ∈ (saveOne env out st i).1 := by
  unfold saveOne
  rw [if_neg (not_not_intro (Or.inl hoe))]
  by_cases hfs : st.fs (moleculeSetupDir out i) = false
  · rw [if_pos hfs]
    exact List.mem_cons_of_mem _ (by simp [savedActions, hoe])
  · rw [if_neg hfs]
    have hne : ¬(st.oeMols i = none) := by
      intro hh; rw [hh] at hoe; cases hoe
    rw [if_neg hne]
    simp [savedActions, hoe]

theorem savedActions_shape (oe : Bool) (mol : Molecule) (d i : String) :
    ∀ a ∈ savedActions oe mol d i,
      (∃ q, a = Action.writeMol2 i q) ∨ (∃ q, a = Action.runEpik i q) ∨
      a = Action.runAntechamber i := by
  intro a ha
  unfold savedActions at ha
  rcases List.mem_append.mp ha with h12 | h3
  · rcases List.mem_append.mp h12 with h1 | h2
    · split at h1
      · simp at h1
        exact Or.inl ⟨_, h1⟩
      · cases h1
    · split at h2
      · simp at h2
        exact Or.inr (Or.inl ⟨_, h2⟩)
      · cases h2
  · split at h3
    · simp at h3
      exact Or.inr (Or.inr h3)
    · cases h3

theorem saveOne_shape (env : Env) (out : String) (st : BuilderState) (i : String) :
    ∀ a ∈ (saveOne env out st i).1,
      a = Action.makedirs (moleculeSetupDir out i) ∨ (∃ q, a = Action.writeMol2 i q) ∨
      (∃ q, a = Action.runEpik i q) ∨ a = Action.runAntechamber i := by
  intro a ha
  unfold saveOne at ha
  split at ha
  · cases ha
  · split at ha
    · rcases List.mem_cons.mp ha with heq | hm
      · exact Or.inl heq
      · exact Or.inr (savedActions_shape _ _ _ _ a hm)
    · split at ha
      · cases ha
      · exact Or.inr (savedActions_shape _ _ _ _ a ha)

theorem saveAll_oeMols (env : Env) (out : String) :
    ∀ (ids : List String) (st : BuilderState),
      ((saveAll env out ids st).2).oeMols = st.oeMols := by
  intro ids
  induction ids with
  | nil => intro st; rfl
  | cons j rest ih =>
    intro st
    show ((saveAll env out rest (saveOne env out st j).2).2).oeMols = st.oeMols
    rw [ih (saveOne env out st j).2, saveOne_oeMols]

theorem saveAll_cache (env : Env) (out : String) :
    ∀ (ids : List String) (st : BuilderState),
      ((saveAll env out ids st).2).fixedPosCache = st.fixedPosCache := by
  intro ids
  induction ids with
  | nil => intro st; rfl
  | cons j rest ih =>
    intro st
    show ((saveAll env out rest (saveOne env out st j).2).2).fixedPosCache = st.fixedPosCache
    rw [ih (saveOne env out st j).2, saveOne_cache]

theorem saveAll_writes (env : Env) (out : String) :
    ∀ (ids : List String) (st : BuilderState) (i : String),
      i ∈ ids → (st.oeMols i).isSome = true →
      ∃ q, Action.writeMol2 i q ∈ (saveAll env out ids st).1 := by
  intro ids
  induction ids with
  | nil => intro st i hi; cases hi
  | cons j rest ih =>
    intro st i hi hoe
    rcases List.mem_cons.mp hi with rfl | hi'
    · exact ⟨pathJoin (moleculeSetupDir out i) (i ++ ".mol2"),
        List.mem_append_left _ (saveOne_writes env out st i hoe)⟩
    · have hoe1 : (((saveOne env out st j).2).oeMols i).isSome = true := by
        rw [saveOne_oeMols]; exact hoe
      rcases ih (saveOne env out st j).2 i hi' hoe1 with ⟨q, hq⟩
      exact ⟨q, List.mem_append_right _ hq⟩

theorem saveAll_no_mention (env : Env) (out : String) :
    ∀ (ids : List String) (st : BuilderState) (i : String),
      st.oeMols i = none → st.fs (moleculeSetupDir out i) = true →
      ∀ a ∈ (saveAll env out ids st).1,
        (∀ q, a ≠ Action.writeMol2 i q) ∧ (∀ q, a ≠ Action.runEpik i q) ∧
        a ≠ Action.runAntechamber i ∧ a ≠ Action.makedirs (moleculeSetupDir out i) := by
  intro ids
  induction ids with
  | nil => intro st i _ _ a ha; cases ha
  | cons j rest ih =>
    intro st i hn hf a ha
    rcases List.mem_append.mp ha with h1 | h2
    · by_cases hij : j = i
      · subst hij
        rw [saveOne_skips env out st j hn hf] at h1
        cases h1
      · rcases saveOne_shape env out st j a h1 with hmk | ⟨q, hw⟩ | ⟨q, he⟩ | hr
        · subst hmk
          refine ⟨fun q => by simp, fun q => by simp, by simp, ?_⟩
          intro hcontra
          have := Action.makedirs.inj hcontra
          exact hij (moleculeSetupDir_inj out j i this)
        · subst hw
          exact ⟨fun q' => by simp [hij], fun q' => by simp, by simp, by simp⟩
        · subst he
          exact ⟨fun q' => by simp, fun q' => by simp [hij], by simp, by simp⟩
        · subst hr
          exact ⟨fun q' => by simp, fun q' => by simp, by simp [hij], by simp⟩
    · have hn1 : ((saveOne env out st j).2).oeMols i = none := by
        rw [saveOne_oeMols]; exact hn
      have hf1 : ((saveOne env out st j).2).fs (moleculeSetupDir out i) = true :=
        saveOne_fs_true env out st j _ hf
      exact ih (saveOne env out st j).2 i hn1 hf1 a h2

/-- C7: during the molecule stage, a molecule described by chemical name or
SMILES rather than a structure file (so its descriptor carries no filepath
and it is materialized through the OpenEye cache) always has its structure
written into its setup directory, whether or not that directory exists;
whereas a file-based molecule whose setup directory already exists is skipped
entirely: no write, no epik, no antechamber, no directory creation for it. -/
theorem setup_molecules_reprocessing (env : Env) (st : BuilderState) (out : String)
    (args : List String) (acts : List Action) (st' : BuilderState)
    (hoe : env.openeyeInstalled = true)
    (h : setup_molecules env st out args = .ok (acts, st')) :
    (∀ i ∈ args, (st.molecules i).filepath = none → ∃ q, Action.writeMol2 i q ∈ acts) ∧
    (∀ i ∈ args, (st.molecules i).filepath.isSome = true → st.oeMols i = none →
      st.fs (moleculeSetupDir out i) = true →
      (∀ q, Action.writeMol2 i q ∉ acts) ∧ (∀ q, Action.runEpik i q ∉ acts) ∧
      Action.runAntechamber i ∉ acts ∧ Action.makedirs (moleculeSetupDir out i) ∉ acts) := by
  simp only [setup_molecules] at h
  split at h
  · cases h
  · rename_i st1 hgen
    rw [if_pos hoe] at h
    split at h
    · cases h
    · rename_i u hovl
      injection h with hpair
      have hfields := generateMissing_fields env st (fileMolIds st args) args st st1 hgen
      have hacts : acts =
          (saveAll env out args
            ((resolveLoop env args
              (updateCacheMany st1 (fixedPositionsOf env st1 (fileMolIds st args)))
              (fixedPositionsOf env st1 (fileMolIds st args))).1)).1 :=
        (congrArg Prod.fst hpair).symm
      constructor
      · intro i hi hfp
        have hnotfm : i ∉ fileMolIds st args := by
          intro hmem
          rcases (mem_fileMolIds st args i).mp hmem with ⟨_, hsome, _⟩
          rw [hfp] at hsome
          cases hsome
        have hoe1 : (st1.oeMols i).isSome = true := by
          by_cases h0 : st.oeMols i = none
          · exact generateMissing_oe_gen env st (fileMolIds st args) args st st1 hgen i hi
              hnotfm h0
          · exact generateMissing_oe_mono env st (fileMolIds st args) args st st1 hgen i
              (by cases hoo : st.oeMols i with
                  | none => exact absurd hoo h0
                  | some v => simp [hoo])
        have hoe2 : ((updateCacheMany st1
            (fixedPositionsOf env st1 (fileMolIds st args))).oeMols i).isSome = true := by
          rw [(updateCacheMany_fields (fixedPositionsOf env st1 (fileMolIds st args)) st1).2.2]
          exact hoe1
        have hoe3 := resolveLoop_oe_isSome env args
          (updateCacheMany st1 (fixedPositionsOf env st1 (fileMolIds st args)))
          (fixedPositionsOf env st1 (fileMolIds st args)) i hoe2
        rcases saveAll_writes env out args _ i hi hoe3 with ⟨q, hq⟩
        exact ⟨q, hacts ▸ hq⟩
      · intro i hi hfps h0 hfsdir
        have hfm : i ∈ fileMolIds st args := (mem_fileMolIds st args i).mpr ⟨hi, hfps, h0⟩
        have hn1 : st1.oeMols i = none := by
          rw [generateMissing_oe_fm env st (fileMolIds st args) args st st1 hgen i hfm]
          exact h0
        have hn2 : ((updateCacheMany st1
            (fixedPositionsOf env st1 (fileMolIds st args))).oeMols i) = none := by
          rw [(updateCacheMany_fields (fixedPositionsOf env st1 (fileMolIds st args)) st1).2.2]
          exact hn1
        have hn3 := resolveLoop_oe_none env args
          (updateCacheMany st1 (fixedPositionsOf env st1 (fileMolIds st args)))
          (fixedPositionsOf env st1 (fileMolIds st args)) i hn2
        have hf3 : ((resolveLoop env args
            (updateCacheMany st1 (fixedPositionsOf env st1 (fileMolIds st args)))
            (fixedPositionsOf env st1 (fileMolIds st args))).1).fs (moleculeSetupDir out i)
            = true := by
          rw [(resolveLoop_fields env args _ _).1,
            (updateCacheMany_fields (fixedPositionsOf env st1 (fileMolIds st args)) st1).1,
            hfields.1]
          exact hfsdir
        have hmention := saveAll_no_mention env out args _ i hn3 hf3
        refine ⟨?_, ?_, ?_, ?_⟩
        · intro q hq
          exact (hmention _ (hacts ▸ hq)).1 q rfl
        · intro q hq
          exact (hmention _ (hacts ▸ hq)).2.1 q rfl
        · intro hq
          exact (hmention _ (hacts ▸ hq)).2.2.1 rfl
        · intro hq
          exact (hmention _ (hacts ▸ hq)).2.2.2 rfl

/-- A state whose molecule table holds one auto-generated molecule (chemical
name, no filepath); its setup directory does not exist yet. -/
def c7St1 : BuilderState :=
  { fs := fun _ => false
    molecules := fun i => if i = "lig" then
        { filepath := none, name := some "benzene", smiles := none,
          parameters := some "leaprc.gaff", epik := none }
      else demoMol
    oeMols := fun _ => none
    fixedPosCache := fun _ => none }

/-- A state whose molecule table holds one file-based molecule whose setup
directory already exists. -/
def c7St2 : BuilderState :=
  { fs := fun p => decide (p = "out/setup/molecules/rec")
    molecules := fun i => if i = "rec" then
        { filepath := some "rec.pdb", name := none, smiles := none,
          parameters := some "leaprc.ff14SB", epik := none }
      else demoMol
    oeMols := fun _ => none
    fixedPosCache := fun _ => none }

theorem setup_molecules_reprocessing_witness :
    ((c7St1.molecules "lig").filepath = none ∧ c7St1.fs (moleculeSetupDir "out" "lig") = false ∧
      ∃ q, Action.writeMol2 "lig" q ∈
        [Action.makedirs "out/setup/molecules/lig",
         Action.writeMol2 "lig" "out/setup/molecules/lig/lig.mol2"]) ∧
    ((c7St2.molecules "rec").filepath.isSome = true ∧ c7St2.oeMols "rec" = none ∧
      c7St2.fs (moleculeSetupDir "out" "rec") = true ∧
      (∀ q, Action.writeMol2 "rec" q ∉ ([] : List Action)) ∧
      Action.makedirs (moleculeSetupDir "out" "rec") ∉ ([] : List Action)) :=
  have h1 : setup_molecules demoEnv c7St1 "out" ["lig"] =
      .ok ([Action.makedirs "out/setup/molecules/lig",
            Action.writeMol2 "lig" "out/setup/molecules/lig/lig.mol2"],
        setMol (mkdirFS "out/setup/molecules/lig" (setOe c7St1 "lig" [((0 : ℚ), 0, 0)])) "lig"
          { filepath := some "out/setup/molecules/lig/lig.mol2", name := some "benzene",
            smiles := none, parameters := some "leaprc.gaff", epik := none }) := by rfl
  have h2 : setup_molecules demoEnv c7St2 "out" ["rec"] =
      .ok ([], setCache c7St2 "rec" [((0 : ℚ), 0, 0)]) := by rfl
  have w1 := (setup_molecules_reprocessing demoEnv c7St1 "out" ["lig"] _ _ rfl h1).1
    "lig" (List.mem_singleton.mpr rfl) rfl
  have w2 := (setup_molecules_reprocessing demoEnv c7St2 "out" ["rec"] _ _ rfl h2).2
    "rec" (List.mem_singleton.mpr rfl) rfl rfl (by decide)
  ⟨⟨rfl, rfl, w1⟩, ⟨rfl, rfl, by decide, w2.1, w2.2.2.2⟩⟩

/-! Minimum-distance lemmas for the fixed-molecule overlap check. -/

theorem listMinQ_eq_none (l : List ℚ) : listMinQ l = none ↔ l = [] := by
  cases l with
  | nil => simp [listMinQ]
  | cons a rest => cases h : listMinQ rest <;> simp [listMinQ, h]

theorem listMinQ_isSome (l : List ℚ) (h : l ≠ []) : ∃ m, listMinQ l = some m := by
  cases hm : listMinQ l with
  | none => exact absurd ((listMinQ_eq_none l).mp hm) h
  | some m => exact ⟨m, rfl⟩

theorem listMinQ_spec (l : List ℚ) (d : ℚ) (h : listMinQ l = some d) :
    d ∈ l ∧ ∀ x ∈ l, d ≤ x := by
  induction l generalizing d with
  | nil => cases h
  | cons a rest ih =>
    simp only [listMinQ] at h
    cases hr : listMinQ rest with
    | none =>
      rw [hr] at h
      have ha : a = d := by simpa using h
      have hrest : rest = [] := (listMinQ_eq_none rest).mp hr
      subst ha
      subst hrest
      exact ⟨by simp, by simp⟩
    | some b =>
      rw [hr] at h
      have hd : min a b = d := by simpa using h
      rcases ih b hr with ⟨hbmem, hble⟩
      subst hd
      constructor
      · rcases min_choice a b with hc | hc
        · rw [hc]; simp
        · rw [hc]; exact List.mem_cons_of_mem a hbmem
      · intro x hx
        rcases List.mem_cons.mp hx with hxa | hx'
        · rw [hxa]; exact min_le_left _ _
        · exact le_trans (min_le_right _ _) (hble x hx')

theorem pairSqDists_ne_nil (mol g : List Point) (hm : mol ≠ []) (hg : g ≠ []) :
    pairSqDists mol g ≠ [] := by
  cases mol with
  | nil => exact absurd rfl hm
  | cons p mt =>
    cases g with
    | nil => exact absurd rfl hg
    | cons q gt => simp [pairSqDists]

theorem pairSqDists_eq_nil (mol g : List Point) (h : pairSqDists mol g = []) :
    mol = [] ∨ g = [] := by
  by_cases hm : mol = []
  · exact Or.inl hm
  · by_cases hg : g = []
    · exact Or.inr hg
    · exact absurd h (pairSqDists_ne_nil mol g hm hg)

theorem mem_pairSqDists (mol g : List Point) (x : ℚ) :
    x ∈ pairSqDists mol g ↔ ∃ p ∈ mol, ∃ q ∈ g, x = sqDist p q := by
  simp only [pairSqDists, List.mem_flatMap, List.mem_map]
  constructor
  · rintro ⟨p, hp, q, hq, rfl⟩
    exact ⟨p, hp, q, hq, rfl⟩
  · rintro ⟨p, hp, q, hq, rfl⟩
    exact ⟨p, hp, q, hq, rfl⟩

theorem sqDist_comm (p q : Point) : sqDist p q = sqDist q p := by
  unfold sqDist
  ring

theorem pairMinSq_isSome (mol g : List Point) (hm : mol ≠ []) (hg : g ≠ []) :
    ∃ m, pairMinSq mol g = some m :=
  listMinQ_isSome _ (pairSqDists_ne_nil mol g hm hg)

theorem pairMinSq_comm (a b : List Point) : pairMinSq a b = pairMinSq b a := by
  cases h1 : pairMinSq a b with
  | none =>
    cases h2 : pairMinSq b a with
    | none => rfl
    | some d =>
      exfalso
      rcases pairSqDists_eq_nil a b ((listMinQ_eq_none _).mp h1) with hh | hh
      · rcases (listMinQ_spec _ _ h2).1 |> (mem_pairSqDists b a d).mp with ⟨p, hp, q, hq, _⟩
        rw [hh] at hq
        cases hq
      · rcases (listMinQ_spec _ _ h2).1 |> (mem_pairSqDists b a d).mp with ⟨p, hp, q, hq, _⟩
        rw [hh] at hp
        cases hp
  | some d =>
    cases h2 : pairMinSq b a with
    | none =>
      exfalso
      rcases pairSqDists_eq_nil b a ((listMinQ_eq_none _).mp h2) with hh | hh
      · rcases (listMinQ_spec _ _ h1).1 |> (mem_pairSqDists a b d).mp with ⟨p, hp, q, hq, _⟩
        rw [hh] at hq
        cases hq
      · rcases (listMinQ_spec _ _ h1).1 |> (mem_pairSqDists a b d).mp with ⟨p, hp, q, hq, _⟩
        rw [hh] at hp
        cases hp
    | some e =>
      congr 1
      rcases listMinQ_spec _ _ h1 with ⟨hmem1, hle1⟩
      rcases listMinQ_spec _ _ h2 with ⟨hmem2, hle2⟩
      have hd_in : d ∈ pairSqDists b a := by
        rcases (mem_pairSqDists a b d).mp hmem1 with ⟨p, hp, q, hq, rfl⟩
        exact (mem_pairSqDists b a _).mpr ⟨q, hq, p, hp, sqDist_comm p q⟩
      have he_in : e ∈ pairSqDists a b := by
        rcases (mem_pairSqDists b a e).mp hmem2 with ⟨p, hp, q, hq, rfl⟩
        exact (mem_pairSqDists a b _).mpr ⟨q, hq, p, hp, sqDist_comm p q⟩
      exact le_antisymm (hle1 e he_in) (hle2 d hd_in)

theorem compute_min_dist2_total (mol : List Point) :
    ∀ (gs : List (List Point)), mol ≠ [] → gs ≠ [] → (∀ g ∈ gs, g ≠ []) →
      ∃ m, compute_min_dist2 mol gs = some m := by
  intro gs
  induction gs with
  | nil => intro _ hgs _; exact absurd rfl hgs
  | cons g rest ih =>
    intro hmol _ hg
    cases rest with
    | nil =>
      rcases pairMinSq_isSome mol g hmol (hg g (by simp)) with ⟨m, hm⟩
      exact ⟨m, by simpa [compute_min_dist2] using hm⟩
    | cons g2 rest' =>
      rcases pairMinSq_isSome mol g hmol (hg g (by simp)) with ⟨a, ha⟩
      rcases ih hmol (by simp) (fun x hx => hg x (List.mem_cons_of_mem g hx)) with ⟨b, hb⟩
      exact ⟨min a b, by simp [compute_min_dist2, ha, hb]⟩

theorem compute_min_dist2_le (mol : List Point) :
    ∀ (gs : List (List Point)) (d : ℚ), compute_min_dist2 mol gs = some d →
      ∀ g ∈ gs, ∀ e, pairMinSq mol g = some e → d ≤ e := by
  intro gs
  induction gs with
  | nil => intro d h; cases h
  | cons g0 rest ih =>
    intro d h g hg e he
    cases rest with
    | nil =>
      rcases List.mem_singleton.mp hg with rfl
      simp only [compute_min_dist2] at h
      rw [h] at he
      exact le_of_eq (Option.some.inj he)
    | cons g2 rest' =>
      simp only [compute_min_dist2] at h
      cases ha : pairMinSq mol g0 with
      | none => rw [ha] at h; cases h
      | some a =>
        cases hb : compute_min_dist2 mol (g2 :: rest') with
        | none => rw [ha, hb] at h; cases h
        | some b =>
          rw [ha, hb] at h
          have hd : min a b = d := by simpa using h
          rcases List.mem_cons.mp hg with rfl | hg'
          · rw [ha] at he
            have : a = e := Option.some.inj he
            subst this
            rw [← hd]
            exact min_le_left a b
          · have hble := ih b hb g hg' e he
            rw [← hd]
            exact le_trans (min_le_right a b) hble

/-- overlapCheck on a list with at least two groups steps through the head. -/
theorem overlapCheck_cons (p : List Point) (rest : List (List Point)) (hr : rest ≠ []) :
    overlapCheck (p :: rest) =
      match compute_min_dist2 p rest with
      | none => .error emptyPositionsMsg
      | some d => if d < 1/100 then .error overlapErrorMsg else overlapCheck rest := by
  cases rest with
  | nil => exact absurd rfl hr
  | cons q rest' => rfl

theorem overlapCheck_fires :
    ∀ (u : List (List Point)) (p : List Point) (v : List (List Point)) (q : List Point)
      (w : List (List Point)) (d : ℚ),
      (∀ g ∈ u ++ (p :: (v ++ (q :: w))), g ≠ []) →
      pairMinSq p q = some d → d < 1/100 →
      overlapCheck (u ++ (p :: (v ++ (q :: w)))) = .error overlapErrorMsg := by
  intro u
  induction u with
  | nil =>
    intro p v q w d hne hpm hd
    have hne' : ∀ g ∈ p :: (v ++ (q :: w)), g ≠ [] := by
      intro g hg
      exact hne g (by simpa using hg)
    have hp : p ≠ [] := hne' p (List.mem_cons_self _ _)
    have hrest : (v ++ (q :: w)) ≠ [] := by simp
    rcases compute_min_dist2_total p (v ++ (q :: w)) hp hrest
      (fun g hg => hne' g (List.mem_cons_of_mem _ hg)) with ⟨m, hm⟩
    have hmq : m ≤ d := compute_min_dist2_le p (v ++ (q :: w)) m hm q (by simp) d hpm
    have hm100 : m < 1/100 := lt_of_le_of_lt hmq hd
    show overlapCheck ([] ++ (p :: (v ++ (q :: w)))) = _
    rw [List.nil_append, overlapCheck_cons p (v ++ (q :: w)) hrest, hm]
    show (if m < 1/100 then (Except.error overlapErrorMsg : Except String Unit)
        else overlapCheck (v ++ (q :: w))) = Except.error overlapErrorMsg
    rw [if_pos hm100]
  | cons x u' ih =>
    intro p v q w d hne hpm hd
    have hne' : ∀ g ∈ x :: (u' ++ (p :: (v ++ (q :: w)))), g ≠ [] := by
      intro g hg
      exact hne g (by simpa using hg)
    have hrest : (u' ++ (p :: (v ++ (q :: w)))) ≠ [] := by simp
    have hx : x ≠ [] := hne' x (List.mem_cons_self _ _)
    rcases compute_min_dist2_total x (u' ++ (p :: (v ++ (q :: w)))) hx hrest
      (fun g hg => hne' g (List.mem_cons_of_mem _ hg)) with ⟨m, hm⟩
    show overlapCheck ((x :: u') ++ (p :: (v ++ (q :: w)))) = _
    rw [List.cons_append, overlapCheck_cons x (u' ++ (p :: (v ++ (q :: w)))) hrest, hm]
    show (if m < 1/100 then (Except.error overlapErrorMsg : Except String Unit)
        else overlapCheck (u' ++ (p :: (v ++ (q :: w))))) = Except.error overlapErrorMsg
    by_cases hm100 : m < 1/100
    · rw [if_pos hm100]
    · rw [if_neg hm100]
      exact ih p v q w d (fun g hg => hne' g (List.mem_cons_of_mem x hg)) hpm hd

theorem two_mem_decomp {α : Type} :
    ∀ (l : List α) (a b : α), a ∈ l → b ∈ l → a ≠ b →
      (∃ u v w, l = u ++ (a :: (v ++ (b :: w)))) ∨
      (∃ u v w, l = u ++ (b :: (v ++ (a :: w)))) := by
  intro l
  induction l with
  | nil => intro a b ha; cases ha
  | cons x t ih =>
    intro a b ha hb hab
    by_cases hax : a = x
    · subst hax
      have hbt : b ∈ t := by
        rcases List.mem_cons.mp hb with rfl | h'
        · exact absurd rfl hab.symm
        · exact h'
      rcases List.append_of_mem hbt with ⟨s1, s2, hts⟩
      exact Or.inl ⟨[], s1, s2, by rw [hts]; rfl⟩
    · by_cases hbx : b = x
      · subst hbx
        have hat : a ∈ t := by
          rcases List.mem_cons.mp ha with rfl | h'
          · exact absurd rfl hax
          · exact h'
        rcases List.append_of_mem hat with ⟨s1, s2, hts⟩
        exact Or.inr ⟨[], s1, s2, by rw [hts]; rfl⟩
      · have hat : a ∈ t := by
          rcases List.mem_cons.mp ha with rfl | h'
          · exact absurd rfl hax
          · exact h'
        have hbt : b ∈ t := by
          rcases List.mem_cons.mp hb with rfl | h'
          · exact absurd rfl hbx
          · exact h'
        rcases ih a b hat hbt hab with ⟨u, v, w, hdec⟩ | ⟨u, v, w, hdec⟩
        · exact Or.inl ⟨x :: u, v, w, by rw [hdec]; rfl⟩
        · exact Or.inr ⟨x :: u, v, w, by rw [hdec]; rfl⟩

theorem fixedPositionsOf_congr (env : Env) (st1 st : BuilderState) (fm : List String)
    (hmol : st1.molecules = st.molecules) (hcache : st1.fixedPosCache = st.fixedPosCache) :
    fixedPositionsOf env st1 fm = fixedPositionsOf env st fm := by
  unfold fixedPositionsOf fixedPosOf
  rw [hmol, hcache]

theorem fixedPositionsOf_snd (env : Env) (st : BuilderState) (fm : List String) :
    (fixedPositionsOf env st fm).map Prod.snd = fm.map (fixedPosOf env st) := by
  unfold fixedPositionsOf
  rw [List.map_map]
  rfl

theorem fixedPositionsOf_fst (env : Env) (st : BuilderState) (fm : List String) :
    (fixedPositionsOf env st fm).map Prod.fst = fm := by
  unfold fixedPositionsOf
  rw [List.map_map]
  exact List.map_id fm

theorem fileMolIds_nodup (st : BuilderState) (args : List String) :
    (fileMolIds st args).Nodup := by
  unfold fileMolIds
  exact List.nodup_dedup _

/-- C10 (amended): during molecule setup with the OpenEye toolkit importable,
if two distinct fixed-position (file-provided) molecules of the setup have
minimum pairwise (squared) interatomic distance below (0.1)^2, setup fails
with the error stating that the given molecules have overlapping atoms; and
whenever setup succeeds, every fixed-position molecule's cached positions are
exactly the positions read for it (cache or file), untouched by the overlap
resolver, which repositions only OpenEye-generated molecules. -/
theorem setup_molecules_fixed_overlap (env : Env) (st : BuilderState) (out : String)
    (args : List String) (hoe : env.openeyeInstalled = true) :
    ((∀ j ∈ fileMolIds st args, fixedPosOf env st j ≠ []) →
      ∀ a b da, a ∈ fileMolIds st args → b ∈ fileMolIds st args → a ≠ b →
        pairMinSq (fixedPosOf env st a) (fixedPosOf env st b) = some da → da < 1/100 →
        setup_molecules env st out args = .error overlapErrorMsg) ∧
    (∀ acts st', setup_molecules env st out args = .ok (acts, st') →
      ∀ i ∈ fileMolIds st args, st'.fixedPosCache i = some (fixedPosOf env st i)) := by
  constructor
  · intro hne a b da ha hb hab hda hd100
    rcases generateMissing_ok env st (fileMolIds st args) hoe args st with ⟨st1, hgen⟩
    have hfields := generateMissing_fields env st (fileMolIds st args) args st st1 hgen
    have hfpos := fixedPositionsOf_congr env st1 st (fileMolIds st args)
      hfields.2.1 hfields.2.2
    have hne' : ∀ g ∈ (fileMolIds st args).map (fixedPosOf env st), g ≠ [] := by
      intro g hg
      rcases List.mem_map.mp hg with ⟨j, hj, rfl⟩
      exact hne j hj
    have hovl : overlapCheck
        ((fixedPositionsOf env st1 (fileMolIds st args)).map Prod.snd)
        = .error overlapErrorMsg := by
      rw [hfpos, fixedPositionsOf_snd]
      rcases two_mem_decomp (fileMolIds st args) a b ha hb hab with
        ⟨u, v, w, hdec⟩ | ⟨u, v, w, hdec⟩
      · have hps : (fileMolIds st args).map (fixedPosOf env st)
            = (u.map (fixedPosOf env st)) ++ ((fixedPosOf env st a)
              :: ((v.map (fixedPosOf env st))
                ++ ((fixedPosOf env st b) :: (w.map (fixedPosOf env st))))) := by
          rw [hdec, List.map_append, List.map_cons, List.map_append, List.map_cons]
        rw [hps]
        exact overlapCheck_fires _ _ _ _ _ da (hps ▸ hne') hda hd100
      · have hps : (fileMolIds st args).map (fixedPosOf env st)
            = (u.map (fixedPosOf env st)) ++ ((fixedPosOf env st b)
              :: ((v.map (fixedPosOf env st))
                ++ ((fixedPosOf env st a) :: (w.map (fixedPosOf env st))))) := by
          rw [hdec, List.map_append, List.map_cons, List.map_append, List.map_cons]
        rw [hps]
        have hda' : pairMinSq (fixedPosOf env st b) (fixedPosOf env st a) = some da := by
          rw [pairMinSq_comm]
          exact hda
        exact overlapCheck_fires _ _ _ _ _ da (hps ▸ hne') hda' hd100
    simp only [setup_molecules, hgen, hoe, if_true, hovl]
  · intro acts st' h i hifm
    simp only [setup_molecules] at h
    split at h
    · cases h
    · rename_i st1 hgen
      rw [if_pos hoe] at h
      split at h
      · cases h
      · rename_i u hovl
        injection h with hpair
        have hfields := generateMissing_fields env st (fileMolIds st args) args st st1 hgen
        have hfpos := fixedPositionsOf_congr env st1 st (fileMolIds st args)
          hfields.2.1 hfields.2.2
        have hsnd : ((saveAll env out args
            ((resolveLoop env args
              (updateCacheMany st1 (fixedPositionsOf env st1 (fileMolIds st args)))
              (fixedPositionsOf env st1 (fileMolIds st args))).1)).2) = st' :=
          congrArg Prod.snd hpair
        rw [← hsnd, saveAll_cache, (resolveLoop_fields env args _ _).2.2]
        rw [hfpos]
        have hmem : (i, fixedPosOf env st i) ∈ fixedPositionsOf env st (fileMolIds st args) :=
          List.mem_map.mpr ⟨i, hifm, rfl⟩
        have hnd : ((fixedPositionsOf env st (fileMolIds st args)).map Prod.fst).Nodup := by
          rw [fixedPositionsOf_fst]
          exact fileMolIds_nodup st args
        exact updateCacheMany_cache_mem _ st1 i (fixedPosOf env st i) hmem hnd

/-- The demo environment with the OpenEye toolkit absent; the pairwise
overlap check of _setup_molecules is guarded by is_openeye_installed and is
skipped entirely in this environment. -/
def envNoOE : Env := { demoEnv with openeyeInstalled := false }

/-- A state with two distinct file-provided molecules whose structure files
hold the same coordinates: their minimum interatomic distance is 0. -/
def c10St : BuilderState :=
  { fs := fun _ => false
    molecules := fun i => if i = "fa" ∨ i = "fb" then
        { filepath := some "fix.pdb", name := none, smiles := none,
          parameters := some "leaprc.ff14SB", epik := none }
      else demoMol
    oeMols := fun _ => none
    fixedPosCache := fun _ => none }

theorem setup_molecules_fixed_overlap_counterexample :
    "fa" ∈ fileMolIds c10St ["fa", "fb"] ∧ "fb" ∈ fileMolIds c10St ["fa", "fb"] ∧
    ("fa" : String) ≠ "fb" ∧
    pairMinSq (fixedPosOf envNoOE c10St "fa") (fixedPosOf envNoOE c10St "fb") = some 0 ∧
    ((0 : ℚ) < 1/100) ∧
    setup_molecules envNoOE c10St "out" ["fa", "fb"] = .ok ([], c10St) :=
  ⟨by decide, by decide, by decide,
   by norm_num [fixedPosOf, envNoOE, demoEnv, c10St, pairMinSq, pairSqDists, listMinQ, sqDist],
   by norm_num, rfl⟩

theorem setup_molecules_fixed_overlap_witness :
    setup_molecules demoEnv c10St "out" ["fa", "fb"] = .error overlapErrorMsg ∧
    (setCache c7St2 "rec" [((0 : ℚ), 0, 0)]).fixedPosCache "rec"
      = some (fixedPosOf demoEnv c7St2 "rec") :=
  ⟨(setup_molecules_fixed_overlap demoEnv c10St "out" ["fa", "fb"] rfl).1
      (by decide) "fa" "fb" 0 (by decide) (by decide) (by decide)
      (by norm_num [fixedPosOf, demoEnv, c10St, pairMinSq, pairSqDists, listMinQ, sqDist])
      (by norm_num),
   (setup_molecules_fixed_overlap demoEnv c7St2 "out" ["rec"] rfl).2 []
     (setCache c7St2 "rec" [((0 : ℚ), 0, 0)]) rfl "rec" (by decide)⟩

end YamlBuild
